import Mathlib

/-!
Shallow embedding of the AccountsReceivableCollectionManager core modules
(`ar_workflow_engine.py`, `ar_promise_tracker.py`, `ar_prioritization.py`).

The sqlite database is modelled as a record of lists of rows (`DB`); each
table row keeps the columns the embedded operations read or write.  Dates and
datetimes are modelled as integers (days); money columns are exact rationals.
The engine's side channels that no verified property mentions (the
`workflow_execution_log` table, the free-text columns of
`collection_activities`, and the `collection_status` column of invoices) are
not carried in the state.  All functions are computable and decidable on
concrete inputs.
-/

namespace ARCM

/-- `WorkflowStatus` enum of `ar_workflow_engine.py`. -/
inductive WStatus
  | PENDING | ACTIVE | COMPLETED | FAILED | CANCELLED
deriving DecidableEq

/-- `status IN ('PENDING','ACTIVE')` — the statuses that make an instance
"outstanding" for the dedup subquery of `trigger_workflows`. -/
def WStatus.isOutstanding : WStatus → Bool
  | .PENDING => true
  | .ACTIVE => true
  | _ => false

/-- `status = 'PENDING'` test used by `execute_pending_workflows`. -/
def WStatus.isPending : WStatus → Bool
  | .PENDING => true
  | _ => false

/-- `PromiseStatus` enum of `ar_promise_tracker.py`. -/
inductive PromiseStatus
  | ACTIVE | KEPT | BROKEN | PARTIALLY_KEPT | CANCELLED
deriving DecidableEq

/-- `status = 'ACTIVE'` test on promises. -/
def PromiseStatus.isActive : PromiseStatus → Bool
  | .ACTIVE => true
  | _ => false

/-- The guard of `update_promise_status`:
`status in [KEPT, BROKEN, CANCELLED]` (terminal statuses). -/
def PromiseStatus.isTerminal : PromiseStatus → Bool
  | .KEPT => true
  | .BROKEN => true
  | .CANCELLED => true
  | _ => false

/-- A row of the `customers` table, restricted to the columns the embedded
operations read. -/
structure Customer where
  customerId : Nat
  customerType : Option String := none
  creditLimit : ℚ := 0
  paymentTermsDays : ℚ := 30
  avgDaysToPay : ℚ := 30
  paymentReliabilityScore : ℚ := 50
  totalSalesLifetime : ℚ := 0
  customerSince : Option Int := none
deriving DecidableEq

/-- A row of the `invoices` table, restricted to the columns read here.
`status` is the string column (`'OPEN'`, `'PARTIAL'`, `'PAID'`). -/
structure Invoice where
  invoiceId : Nat
  customerId : Nat
  outstanding : ℚ
  daysPastDue : Int
  status : String
deriving DecidableEq

/-- A row of `payment_applications` joined with `payments`
(`applied_amount`, the invoice it was applied to, and the payment date). -/
structure PaymentApp where
  invoiceId : Nat
  paymentDate : Int
  appliedAmount : ℚ
deriving DecidableEq

/-- A row of `collection_activities`, restricted to the columns read by the
scorer (`activity_date`, `activity_result`). -/
structure ActivityRec where
  customerId : Nat
  activityDate : Int
  activityResult : String
deriving DecidableEq

/-- A row of `collection_workflows` as read by `trigger_workflows`. -/
structure Workflow where
  workflowId : Nat
  daysPastDueTrigger : Int
  amountThreshold : ℚ
  customerTypeFilter : Option String := none
  isActive : Bool := true
deriving DecidableEq

/-- A row of `workflow_steps`. -/
structure WStep where
  workflowId : Nat
  stepOrder : Nat
  actionType : String
  delayDays : Int := 0
  isActive : Bool := true
deriving DecidableEq

/-- A row of `workflow_instances`.  The generated string primary key
`WF_{workflow}_{customer}_{timestamp}` is modelled by a numeric id drawn
from a fresh-id counter. -/
structure WInstance where
  instanceId : Nat
  workflowId : Nat
  customerId : Nat
  invoiceId : Option Nat
  status : WStatus
  currentStep : Nat := 0
  scheduledDate : Int
  createdDate : Int := 0
  completedDate : Option Int := none
  lastActionDate : Option Int := none
  failureReason : Option String := none
  retryCount : Nat := 0
deriving DecidableEq

/-- A row of `payment_promises`, restricted to the columns the tracker reads
or writes. -/
structure Promise where
  promiseId : Nat
  customerId : Nat
  invoiceId : Option Nat
  promiseDate : Int
  promisedAmount : ℚ
  promisedPaymentDate : Int
  status : PromiseStatus
  actualPaymentDate : Option Int := none
  actualPaymentAmount : Option ℚ := none
  escalationRequired : Bool := false
  followUpDate : Int := 0
  followUpCompleted : Bool := false
  notes : String := ""
deriving DecidableEq

/-- The shared sqlite database (`ar_collection.db`) as a record of tables,
plus fresh-id counters standing for the generated primary keys. -/
structure DB where
  customers : List Customer := []
  invoices : List Invoice := []
  payments : List PaymentApp := []
  activities : List ActivityRec := []
  workflows : List Workflow := []
  steps : List WStep := []
  instances : List WInstance := []
  promises : List Promise := []
  nextInstanceId : Nat := 0
  nextPromiseId : Nat := 0
deriving DecidableEq

/-! ### Workflow engine: `trigger_workflows` (`ar_workflow_engine.py:164-246`) -/

/-- The dedup subquery of `trigger_workflows`:
`SELECT invoice_id FROM workflow_instances WHERE status IN
('PENDING','ACTIVE') AND invoice_id IS NOT NULL` — an invoice id is covered
when some PENDING/ACTIVE instance (of any workflow) carries it. -/
def coveredInvoice (insts : List WInstance) (i : Nat) : Bool :=
  insts.any (fun w => w.status.isOutstanding && w.invoiceId == some i)

/-- The trigger predicate of the invoice query in `trigger_workflows`, without
the dedup clause: `i.status = 'OPEN' AND i.days_past_due >= ? AND
i.outstanding_amount >= ?` joined to `customers`, with
`AND c.customer_type = ?` appended only when the filter is truthy (Python
treats `None` and `''` both as "no filter"). -/
def baseMatch (customers : List Customer) (w : Workflow) (inv : Invoice) : Bool :=
  inv.status == "OPEN"
    && decide (w.daysPastDueTrigger ≤ inv.daysPastDue)
    && decide (w.amountThreshold ≤ inv.outstanding)
    && (match customers.find? (fun c => c.customerId == inv.customerId) with
        | none => false
        | some c =>
          match w.customerTypeFilter with
          | none => true
          | some f => f == "" || c.customerType == some f)

/-- Full row predicate of the invoice query of `trigger_workflows`,
including the dedup `NOT IN` clause. -/
def invoiceMatches (db : DB) (w : Workflow) (inv : Invoice) : Bool :=
  baseMatch db.customers w inv && !coveredInvoice db.instances inv.invoiceId

/-- `_create_workflow_instance`: inserts one PENDING instance scheduled at
`now` (`datetime.now()`), returning the fresh id. -/
def _create_workflow_instance (now : Int) (db : DB) (workflowId customerId : Nat)
    (invoiceId : Option Nat) : DB × Nat :=
  let inst : WInstance :=
    { instanceId := db.nextInstanceId, workflowId := workflowId,
      customerId := customerId, invoiceId := invoiceId,
      status := .PENDING, currentStep := 0,
      scheduledDate := now, createdDate := now }
  ({ db with instances := db.instances ++ [inst],
             nextInstanceId := db.nextInstanceId + 1 }, db.nextInstanceId)

/-- The inner `for invoice in matching_invoices` loop of `trigger_workflows`:
creates one instance per matched invoice row, in order. -/
def createInstancesFor (now : Int) (workflowId : Nat) :
    List Invoice → DB → DB × List Nat
  | [], db => (db, [])
  | inv :: rest, db =>
    let (db1, iid) := _create_workflow_instance now db workflowId inv.customerId (some inv.invoiceId)
    let (db2, ids) := createInstancesFor now workflowId rest db1
    (db2, iid :: ids)

/-- The row `_create_workflow_instance` inserts for a matched invoice
(used to characterize the instance-creation loop). -/
def newInstanceRow (now : Int) (workflowId nid : Nat) (inv : Invoice) : WInstance :=
  { instanceId := nid, workflowId := workflowId, customerId := inv.customerId,
    invoiceId := some inv.invoiceId, status := .PENDING, currentStep := 0,
    scheduledDate := now, createdDate := now }

/-- The block of rows `createInstancesFor` appends, with sequential fresh
ids starting at `nid`. -/
def mkNewInstances (now : Int) (workflowId : Nat) : Nat → List Invoice → List WInstance
  | _, [] => []
  | nid, inv :: rest => newInstanceRow now workflowId nid inv :: mkNewInstances now workflowId (nid + 1) rest

/-- One iteration of the `for workflow in workflows` loop of
`trigger_workflows`: run the invoice query against the current database
(earlier iterations' inserts are committed and visible) and create the
instances. -/
def scanWorkflow (now : Int) (db : DB) (w : Workflow) : DB × List Nat :=
  createInstancesFor now w.workflowId (db.invoices.filter (invoiceMatches db w)) db

/-- The `for workflow in workflows` loop of `trigger_workflows`. -/
def scanWorkflowList (now : Int) : List Workflow → DB → DB × List Nat
  | [], db => (db, [])
  | w :: rest, db =>
    let (db1, ids1) := scanWorkflow now db w
    let (db2, ids2) := scanWorkflowList now rest db1
    (db2, ids1 ++ ids2)

/-- `trigger_workflows` (ScanTriggers): iterates the active workflow
definitions (in `execution_order`, the order of the `workflows` list) and
creates an instance for every invoice matching the trigger query. -/
def trigger_workflows (now : Int) (db : DB) : DB × List Nat :=
  scanWorkflowList now (db.workflows.filter (·.isActive)) db

/-! ### Workflow engine: `execute_pending_workflows`
(`ar_workflow_engine.py:248-368`, 559-579) -/

/-- Outcome of one `_execute_workflow_instance` call: the no-more-steps
completion path, a successful step execution, or a raised exception
(propagated to the caller's `except` block). -/
inductive StepOutcome
  | completedNoSteps
  | stepDone
  | raised (msg : String)
deriving DecidableEq

/-- The step lookup of `_execute_workflow_instance`:
`SELECT ... FROM workflow_steps WHERE workflow_id = ? AND step_order = ?
AND is_active = TRUE` (`fetchone`). -/
def findStep (steps : List WStep) (workflowId stepOrder : Nat) : Option WStep :=
  steps.find? (fun s => s.workflowId == workflowId && s.stepOrder == stepOrder && s.isActive)

/-- `SELECT MAX(step_order) FROM workflow_steps WHERE workflow_id = ?`
(`NULL`, i.e. `none`, when the workflow has no steps). -/
def maxStepOrder (steps : List WStep) (workflowId : Nat) : Option Nat :=
  ((steps.filter (fun s => s.workflowId == workflowId)).map (·.stepOrder)).max?

/-- Update the instance row with the given id (`UPDATE workflow_instances ...
WHERE instance_id = ?`). -/
def updateInstance (db : DB) (iid : Nat) (f : WInstance → WInstance) : DB :=
  { db with instances := db.instances.map (fun w => if w.instanceId == iid then f w else w) }

/-- `_mark_instance_completed`: sets status COMPLETED and `completed_date`
(`CURRENT_TIMESTAMP`, modelled as `now`). -/
def _mark_instance_completed (now : Int) (db : DB) (iid : Nat) : DB :=
  updateInstance db iid (fun w => { w with status := .COMPLETED, completedDate := some now })

/-- `_mark_instance_failed`: sets status FAILED and stores the failure
reason.  (It touches no other column — in particular `retry_count` is left
as it was.) -/
def _mark_instance_failed (db : DB) (iid : Nat) (msg : String) : DB :=
  updateInstance db iid (fun w => { w with status := .FAILED, failureReason := some msg })

/-- The effect of `_execute_action`: the real function re-reads customer
state, appends a `collection_activities` row and may raise (missing customer
data, storage errors).  It never touches `workflow_instances`.  It is
modelled as an oracle from (action type, customer id, invoice id) to either
success or a raised error message; the activity append is not carried since
no verified property mentions it. -/
def ActionOracle : Type := String → Nat → Option Nat → Except String Unit

/-- `_execute_workflow_instance`: looks the instance up (raising when
missing), fetches the step at `current_step + 1` (completing the instance
when there is none), invokes the action, and on success advances
`current_step`, reschedules at `now + delay_days` of the *executed* step
(`datetime.now()` when the delay is falsy, i.e. 0), and sets the status via
the SQL CASE: COMPLETED when the new step counter equals
`MAX(step_order)` of the workflow, ACTIVE otherwise.  A raised action leaves
the row unchanged (the transaction never commits). -/
def _execute_workflow_instance (now : Int) (act : ActionOracle) (db : DB) (iid : Nat) :
    DB × StepOutcome :=
  match db.instances.find? (fun w => w.instanceId == iid) with
  | none => (db, .raised "Workflow instance not found")
  | some inst =>
    match findStep db.steps inst.workflowId (inst.currentStep + 1) with
    | none => (_mark_instance_completed now db iid, .completedNoSteps)
    | some step =>
      match act step.actionType inst.customerId inst.invoiceId with
      | .error msg => (db, .raised msg)
      | .ok _ =>
        let nextStep := inst.currentStep + 1
        let nextScheduled := if step.delayDays ≠ 0 then now + step.delayDays else now
        (updateInstance db iid (fun w =>
          { w with currentStep := nextStep,
                   scheduledDate := nextScheduled,
                   lastActionDate := some now,
                   status := if maxStepOrder db.steps inst.workflowId = some nextStep
                             then .COMPLETED else .ACTIVE }), .stepDone)

/-- The due-instance selection of `execute_pending_workflows`:
`SELECT instance_id ... WHERE status = 'PENDING' AND scheduled_date <= ?`.
(The `ORDER BY scheduled_date` only fixes the processing order; the per-id
updates make the final state independent of it.) -/
def duePending (now : Int) (db : DB) : List Nat :=
  (db.instances.filter (fun w => w.status.isPending && decide (w.scheduledDate ≤ now))).map
    (·.instanceId)

/-- The `for instance in pending_instances` loop of
`execute_pending_workflows`: execute each snapshot id, catching raised
errors and marking the instance FAILED.  Returns (state, executed, failed). -/
def executePendingList (now : Int) (act : ActionOracle) :
    List Nat → DB → DB × Nat × Nat
  | [], db => (db, 0, 0)
  | iid :: rest, db =>
    let (db1, out) := _execute_workflow_instance now act db iid
    match out with
    | .raised msg =>
      let db2 := _mark_instance_failed db1 iid msg
      let (db3, e, f) := executePendingList now act rest db2
      (db3, e, f + 1)
    | _ =>
      let (db3, e, f) := executePendingList now act rest db1
      (db3, e + 1, f)

/-- `execute_pending_workflows` (ExecuteDue): snapshot the due PENDING
instances, then execute each. -/
def execute_pending_workflows (now : Int) (act : ActionOracle) (db : DB) :
    DB × Nat × Nat :=
  executePendingList now act (duePending now db) db

/-- The net effect of one `execute_pending_workflows` loop iteration on its
target instance row (characterization used by the execute-path lemmas):
no step at `current_step + 1` → COMPLETED with completion date; action
raised → FAILED with the stored reason (via the caller's `except` handler);
action succeeded → step advance, reschedule, CASE status. -/
def stepResult (now : Int) (act : ActionOracle) (steps : List WStep) (x : WInstance) : WInstance :=
  match findStep steps x.workflowId (x.currentStep + 1) with
  | none => { x with status := .COMPLETED, completedDate := some now }
  | some step =>
    match act step.actionType x.customerId x.invoiceId with
    | .error msg => { x with status := .FAILED, failureReason := some msg }
    | .ok _ =>
      { x with currentStep := x.currentStep + 1,
               scheduledDate := if step.delayDays ≠ 0 then now + step.delayDays else now,
               lastActionDate := some now,
               status := if maxStepOrder steps x.workflowId = some (x.currentStep + 1)
                         then .COMPLETED else .ACTIVE }

/-- One `execute_pending_workflows` loop iteration (step execution plus the
`except` handler that marks a raised instance FAILED), state part only. -/
def execOne (now : Int) (act : ActionOracle) (db : DB) (iid : Nat) : DB :=
  match _execute_workflow_instance now act db iid with
  | (db1, .raised msg) => _mark_instance_failed db1 iid msg
  | (db1, _) => db1

/-! ### Promise tracker (`ar_promise_tracker.py`) -/

/-- `tolerance_settings['grace_period_days']`. -/
def gracePeriodDays : Int := 2

/-- `tolerance_settings['escalation_threshold']`. -/
def escalationThreshold : Nat := 3

/-- `tolerance_settings['follow_up_lead_time']`. -/
def followUpLeadTime : Int := 1

/-- The broken-promise count query of `update_promise_status`:
promises of the customer with status BROKEN made in the trailing 90 days. -/
def brokenCount90 (db : DB) (customerId : Nat) (today : Int) : Nat :=
  (db.promises.filter (fun p =>
    p.customerId == customerId && (p.status == .BROKEN)
      && decide (today - 90 ≤ p.promiseDate))).length

instance : BEq PromiseStatus := ⟨fun a b => decide (a = b)⟩

instance : LawfulBEq PromiseStatus where
  eq_of_beq h := of_decide_eq_true h
  rfl := by intro a; exact decide_eq_true rfl

/-- The activity row appended by `_create_promise_activity` /
`_create_follow_up_activity`: only the columns the scorer later reads are
carried. -/
def appendActivity (db : DB) (customerId : Nat) (today : Int) (result : String) : DB :=
  { db with activities := db.activities ++
      [{ customerId := customerId, activityDate := today, activityResult := result }] }

/-- `activity_result` tag written by `_create_promise_activity` for each
status. -/
def promiseActivityResult : PromiseStatus → String
  | .KEPT => "PROMISE_KEPT"
  | .BROKEN => "PROMISE_BROKEN"
  | .PARTIALLY_KEPT => "PARTIAL_PAYMENT"
  | _ => "PROMISE_CANCELLED"

/-- The `UPDATE payment_promises SET ...` row rewrite of
`update_promise_status`: status, actual payment fields, escalation flag,
`follow_up_completed = TRUE`, appended notes. -/
def upsRow (status1 : PromiseStatus) (actualAmount : ℚ) (actualDate : Option Int)
    (notes : String) (escalation : Bool) (q : Promise) : Promise :=
  { q with status := status1,
           actualPaymentDate := actualDate,
           actualPaymentAmount := some actualAmount,
           escalationRequired := escalation,
           followUpCompleted := true,
           notes := if q.notes = "" then notes else q.notes ++ "; " ++ notes }

/-- `update_promise_status(promise_id, new_status, actual_payment_amount,
actual_payment_date, notes)`:
looks the promise up (error when missing), rejects any transition out of a
terminal status (KEPT/BROKEN/CANCELLED) with no state change, requires a
positive actual amount for KEPT/PARTIALLY_KEPT, downgrades a KEPT request to
PARTIALLY_KEPT when the paid amount is not within 1% of the promised amount
and is below 90% of it, computes `escalation_required` for BROKEN from the
customer's trailing-90-day broken count, and rewrites the row via `upsRow`.
Returns the effective new status and the escalation flag.
(The `invoices.collection_status` side write is not carried.) -/
def update_promise_status (today : Int) (db : DB) (pid : Nat)
    (newStatus : PromiseStatus) (actualAmount : ℚ) (actualDate : Option Int)
    (notes : String) : DB × Except String (PromiseStatus × Bool) :=
  match db.promises.find? (fun p => p.promiseId == pid) with
  | none => (db, .error "Payment promise not found")
  | some p =>
    if p.status.isTerminal then
      (db, .error "Cannot update promise with terminal status")
    else if (newStatus = .KEPT ∨ newStatus = .PARTIALLY_KEPT) ∧ actualAmount ≤ 0 then
      (db, .error "Actual payment amount required for KEPT/PARTIALLY_KEPT status")
    else
      let status1 :=
        if newStatus = .KEPT ∧ |actualAmount - p.promisedAmount| > p.promisedAmount * 0.01
            ∧ actualAmount < p.promisedAmount * 0.9
        then PromiseStatus.PARTIALLY_KEPT else newStatus
      let escalation : Bool :=
        status1 = .BROKEN ∧ escalationThreshold - 1 ≤ brokenCount90 db p.customerId today
      let db1 := { db with promises := db.promises.map (fun q =>
        if q.promiseId == pid then upsRow status1 actualAmount actualDate notes escalation q
        else q) }
      let db2 := appendActivity db1 p.customerId today (promiseActivityResult status1)
      (db2, .ok (status1, escalation))

/-- The `INSERT INTO payment_promises` row of `create_payment_promise`:
status ACTIVE, promise date = today, follow-up date = promised payment date
minus `follow_up_lead_time` (one day). -/
def createdRow (nextId customerId : Nat) (invoiceId : Option Nat) (today : Int)
    (promisedAmount : ℚ) (promisedPaymentDate : Int) (notes : String) : Promise :=
  { promiseId := nextId, customerId := customerId, invoiceId := invoiceId,
    promiseDate := today, promisedAmount := promisedAmount,
    promisedPaymentDate := promisedPaymentDate, status := .ACTIVE,
    followUpDate := promisedPaymentDate - followUpLeadTime, notes := notes }

/-- `create_payment_promise`: validates in source order (non-positive
amount; promised date not strictly in the future; missing customer; when an
invoice is linked, a row with that id, that customer and a positive
outstanding balance must exist and the promised amount must not exceed it),
each rejection returning an error with no state change; on success appends
an ACTIVE promise with `follow_up_date = promised date - follow_up_lead_time`
and the follow-up activity row.  (The date-string parsing branch and the
`invoices.collection_status` side write are not carried.) -/
def create_payment_promise (today : Int) (db : DB) (customerId : Nat)
    (promisedAmount : ℚ) (promisedPaymentDate : Int) (invoiceId : Option Nat)
    (notes : String) : DB × Except String Nat :=
  if promisedAmount ≤ 0 then (db, .error "Promised amount must be positive")
  else if promisedPaymentDate ≤ today then (db, .error "Promise date must be in the future")
  else
    match db.customers.find? (fun c => c.customerId == customerId) with
    | none => (db, .error "Customer not found")
    | some _ =>
      let invoiceCheck : Except String Unit :=
        match invoiceId with
        | none => .ok ()
        | some i =>
          match db.invoices.find? (fun x =>
              x.invoiceId == i && x.customerId == customerId && decide (0 < x.outstanding)) with
          | none => .error "Invoice not found or already paid"
          | some invc =>
            if invc.outstanding < promisedAmount then
              .error "Promised amount exceeds outstanding balance"
            else .ok ()
      match invoiceCheck with
      | .error e => (db, .error e)
      | .ok _ =>
        let promise := createdRow db.nextPromiseId customerId invoiceId today
          promisedAmount promisedPaymentDate notes
        let db1 := { db with promises := db.promises ++ [promise],
                             nextPromiseId := db.nextPromiseId + 1 }
        (appendActivity db1 customerId today "SCHEDULED", .ok db.nextPromiseId)

/-- The payment-window sum of `process_overdue_promises`:
`SUM(pa.applied_amount)` over payment applications to the linked invoice
with payment date in `[promised date, promised date + 5]`
(0 both for "no linked invoice" and for `SUM` returning `NULL`). -/
def windowApplied (db : DB) (p : Promise) : ℚ :=
  match p.invoiceId with
  | none => 0
  | some i =>
    ((db.payments.filter (fun pa =>
        pa.invoiceId == i && decide (p.promisedPaymentDate ≤ pa.paymentDate)
          && decide (pa.paymentDate ≤ p.promisedPaymentDate + 5))).map
      (·.appliedAmount)).sum

/-- The per-promise body of the `process_overdue_promises` loop:
`payment_received` is true when the window sum is truthy (non-zero) and at
least 90% of the promised amount; a received payment resolves to KEPT at
≥ 99% and PARTIALLY_KEPT below, anything else resolves to BROKEN. -/
def processOverdueOne (today : Int) (db : DB) (row : Promise) :
    DB × Except String (PromiseStatus × Bool) :=
  let total := windowApplied db row
  let received := total ≠ 0 ∧ row.promisedAmount * 0.9 ≤ total
  if received then
    let status : PromiseStatus :=
      if row.promisedAmount * 0.99 ≤ total then .KEPT else .PARTIALLY_KEPT
    update_promise_status today db row.promiseId status total (some row.promisedPaymentDate) ""
  else
    update_promise_status today db row.promiseId .BROKEN 0 none ""

/-- The `for ... in overdue_promises` loop (over the snapshot rows fetched
up front).  Returns (state, processed count, escalated count). -/
def processOverdueList (today : Int) : List Promise → DB → DB × Nat × Nat
  | [], db => (db, 0, 0)
  | row :: rest, db =>
    let (db1, res) := processOverdueOne today db row
    let (db2, pc, ec) := processOverdueList today rest db1
    match res with
    | .ok (st, esc) =>
      (db2, pc + 1, ec + if st = .BROKEN ∧ esc then 1 else 0)
    | .error _ => (db2, pc, ec)

/-- `process_overdue_promises` (Reconcile): select the ACTIVE promises whose
promised payment date is before `today - grace_period_days`, then resolve
each against the payments applied in the 5-day window. -/
def process_overdue_promises (today : Int) (db : DB) : DB × Nat × Nat :=
  processOverdueList today
    (db.promises.filter (fun p =>
      p.status.isActive && decide (p.promisedPaymentDate < today - gracePeriodDays))) db

/-! ### Priority scorer (`ar_prioritization.py`) -/

/-- `scoring_weights['amount_weight']`. -/
def amount_weight : ℚ := 0.25

/-- `scoring_weights['aging_weight']`. -/
def aging_weight : ℚ := 0.30

/-- `scoring_weights['customer_history_weight']`. -/
def customer_history_weight : ℚ := 0.20

/-- `scoring_weights['relationship_weight']`. -/
def relationship_weight : ℚ := 0.15

/-- `scoring_weights['collection_effort_weight']`. -/
def collection_effort_weight : ℚ := 0.10

/-- `_get_outstanding_invoices`: `SELECT ... FROM invoices WHERE
customer_id = ? AND outstanding_amount > 0` (the `ORDER BY` only affects
presentation). -/
def outstandingInvoicesOf (db : DB) (cid : Nat) : List Invoice :=
  db.invoices.filter (fun i => i.customerId == cid && decide (0 < i.outstanding))

/-- `_calculate_amount_score`: banded score on the total outstanding. -/
def _calculate_amount_score (invoices : List Invoice) : ℚ :=
  if invoices.isEmpty then 0
  else
    let total := (invoices.map (·.outstanding)).sum
    if total ≤ 1000 then 10
    else if total ≤ 5000 then 25
    else if total ≤ 25000 then 50
    else if total ≤ 100000 then 75
    else 90

/-- The `weighted_aging` accumulator of `_calculate_aging_score`:
`min(100, days_past_due * 0.8) * outstanding_amount` summed. -/
def agingNum (invoices : List Invoice) : ℚ :=
  (invoices.map (fun i => min 100 ((i.daysPastDue : ℚ) * 0.8) * i.outstanding)).sum

/-- The `total_weight` accumulator of `_calculate_aging_score`. -/
def agingDen (invoices : List Invoice) : ℚ :=
  (invoices.map (·.outstanding)).sum

/-- `_calculate_aging_score`: amount-weighted average of the per-invoice
aging score. -/
def _calculate_aging_score (invoices : List Invoice) : ℚ :=
  if invoices.isEmpty then 0
  else if 0 < agingDen invoices then agingNum invoices / agingDen invoices
  else 0

/-- The payment-timing adjustment of `_calculate_payment_history_score`:
the stored reliability score bumped when the customer pays within terms,
docked slightly when up to 10 days late, docked by a capped penalty
otherwise. -/
def historyBase (c : Customer) : ℚ :=
  if c.avgDaysToPay ≤ c.paymentTermsDays then min 100 (c.paymentReliabilityScore + 10)
  else if c.avgDaysToPay ≤ c.paymentTermsDays + 10 then max 0 (c.paymentReliabilityScore - 5)
  else max 0 (c.paymentReliabilityScore
    - min 50 ((c.avgDaysToPay - c.paymentTermsDays) * 2))

/-- `_calculate_payment_history_score`: the customer's stored reliability
score adjusted by payment timing vs terms (`historyBase`) and by the
trailing-90-day promise-keeping rate. -/
def _calculate_payment_history_score (today : Int) (db : DB) (cid : Nat) : ℚ :=
  match db.customers.find? (fun c => c.customerId == cid) with
  | none => 50
  | some c =>
    let hs1 := historyBase c
    let recent := db.promises.filter (fun p =>
      p.customerId == cid && decide (today - 90 ≤ p.promiseDate))
    let kept := (recent.filter (fun p => p.status == .KEPT)).length
    if recent.length ≠ 0 then
      let rate : ℚ := (kept : ℚ) / (recent.length : ℚ)
      if rate < 0.5 then max 0 (hs1 - 20)
      else if 0.8 < rate then min 100 (hs1 + 5)
      else hs1
    else hs1

/-- `value_tiers['tier_1_min']`. -/
def tier_1_min : ℚ := 100000

/-- `value_tiers['tier_2_min']`. -/
def tier_2_min : ℚ := 25000

/-- `value_tiers['tier_3_min']`. -/
def tier_3_min : ℚ := 5000

/-- `_calculate_relationship_score`: neutral 50 adjusted by customer type,
lifetime-value tier, credit utilization and relationship tenure, clamped
to [0,100]. -/
def _calculate_relationship_score (today : Int) (db : DB) (cid : Nat) (c : Customer) : ℚ :=
  let b1 : ℚ := 50 +
    (if c.customerType == some "VIP" then -20
     else if c.customerType == some "HIGH_RISK" then 30
     else if c.customerType == some "NEW" then 10
     else 0)
  let b2 := b1 +
    (if tier_1_min ≤ c.totalSalesLifetime then -15
     else if tier_2_min ≤ c.totalSalesLifetime then -5
     else if c.totalSalesLifetime < tier_3_min then 10
     else 0)
  let t := ((outstandingInvoicesOf db cid).map (·.outstanding)).sum
  let b3 :=
    if 0 < c.creditLimit ∧ t ≠ 0 then
      let u := t / c.creditLimit
      b2 + (if 1 < u then 25 else if 0.8 < u then 15 else if 0.5 < u then 5 else 0)
    else b2
  let b4 :=
    match c.customerSince with
    | none => b3
    | some since =>
      let years : ℚ := ((today - since : Int) : ℚ) / 365.25
      b3 + (if 5 < years then -10 else if years < 1 then 5 else 0)
  max 0 (min 100 b4)

/-- `_calculate_collection_effort_score`: neutral 50 (no 60-day activity)
or 50 adjusted by no-answer rate, promises/disputes raised and recency of
the last contact, clamped to [0,100]. -/
def _calculate_collection_effort_score (today : Int) (db : DB) (cid : Nat) : ℚ :=
  let acts := db.activities.filter (fun a =>
    a.customerId == cid && decide (today - 60 ≤ a.activityDate))
  if acts.isEmpty then 50
  else
    let noAnswer := (acts.filter (fun a => a.activityResult == "NO_ANSWER")).length
    let promiseCt := (acts.filter (fun a => a.activityResult == "PROMISE_MADE")).length
    let disputes := (acts.filter (fun a => a.activityResult == "DISPUTE_RAISED")).length
    let rate : ℚ := (noAnswer : ℚ) / (acts.length : ℚ)
    let e1 : ℚ := 50 + (if 0.7 < rate then 20 else if rate < 0.3 then -5 else 0)
    let e2 := e1 + (if 0 < promiseCt then 10 else 0)
    let e3 := e2 + (if 0 < disputes then 15 else 0)
    let e4 :=
      match (acts.map (·.activityDate)).max? with
      | none => e3
      | some last =>
        let ds := today - last
        e3 + (if 14 < ds then 10 else if ds < 3 then -5 else 0)
    max 0 (min 100 e4)

/-- `calculate_customer_priority_score` (Score): `none` when the customer
does not exist, 0 when it has no outstanding invoices, else the weighted
composite of the five component scores.  (The returned report rounds the
composite to two decimals for display; the model keeps the exact value.) -/
def calculate_customer_priority_score (today : Int) (db : DB) (cid : Nat) : Option ℚ :=
  match db.customers.find? (fun c => c.customerId == cid) with
  | none => none
  | some c =>
    let invs := outstandingInvoicesOf db cid
    if invs.isEmpty then some 0
    else some
      (_calculate_amount_score invs * amount_weight
        + _calculate_aging_score invs * aging_weight
        + _calculate_payment_history_score today db cid * customer_history_weight
        + _calculate_relationship_score today db cid c * relationship_weight
        + _calculate_collection_effort_score today db cid * collection_effort_weight)

/-! ### Concrete states used by witnesses and counterexamples -/

/-- An action oracle whose actions always succeed. -/
def actOk : ActionOracle := fun _ _ _ => .ok ()

/-- An action oracle whose actions always raise. -/
def actBoom : ActionOracle := fun _ _ _ => .error "boom"

/-- Two active workflow definitions whose triggers are both satisfied by
invoice 7 of customer 1; no pre-existing instances. -/
def exC2db : DB :=
  { customers := [{ customerId := 1 }],
    invoices := [{ invoiceId := 7, customerId := 1, outstanding := 5000,
                   daysPastDue := 45, status := "OPEN" }],
    workflows := [{ workflowId := 1, daysPastDueTrigger := 31, amountThreshold := 500 },
                  { workflowId := 2, daysPastDueTrigger := 1, amountThreshold := 100 }] }

/-- A PENDING instance of workflow 1 at step 0, due since time 0. -/
def exInst0 : WInstance :=
  { instanceId := 0, workflowId := 1, customerId := 1, invoiceId := some 7,
    status := .PENDING, currentStep := 0, scheduledDate := 0 }

/-- Step 1 of workflow 1 (delay 0). -/
def exStep1 : WStep :=
  { workflowId := 1, stepOrder := 1, actionType := "EMAIL_REMINDER", delayDays := 0 }

/-- Step 2 of workflow 1 (delay 7). -/
def exStep2 : WStep :=
  { workflowId := 1, stepOrder := 2, actionType := "PHONE_CALL", delayDays := 7 }

/-- A workflow with two steps (delays 0 and 7) and one PENDING due instance
at step 0, used for the C3 scheduling counterexample. -/
def exC3db : DB :=
  { customers := [{ customerId := 1 }],
    workflows := [{ workflowId := 1, daysPastDueTrigger := 1, amountThreshold := 0 }],
    steps := [exStep1, exStep2],
    instances := [exInst0] }

/-- A single-step workflow with one PENDING due instance at step 0, used for
the C5 completion counterexample. -/
def exC5db : DB :=
  { customers := [{ customerId := 1 }],
    workflows := [{ workflowId := 1, daysPastDueTrigger := 1, amountThreshold := 0 }],
    steps := [exStep1],
    instances := [exInst0] }

/-- An ACTIVE instance of workflow 1 after its first step. -/
def exInstActive : WInstance :=
  { instanceId := 1, workflowId := 1, customerId := 1, invoiceId := some 8,
    status := .ACTIVE, currentStep := 1, scheduledDate := 3 }

/-- A two-step workflow with one due PENDING instance and one ACTIVE
instance, used for the C10 frame witness. -/
def exC10db : DB :=
  { customers := [{ customerId := 1 }],
    workflows := [{ workflowId := 1, daysPastDueTrigger := 1, amountThreshold := 0 }],
    steps := [exStep1, exStep2],
    instances := [exInst0, exInstActive] }

/-- An ACTIVE promise of $1,000 due at day 0 linked to invoice 7
(Scenario 3 of the spec). -/
def exProm1 : Promise :=
  { promiseId := 1, customerId := 1, invoiceId := some 7, promiseDate := -10,
    promisedAmount := 1000, promisedPaymentDate := 0, status := .ACTIVE }

/-- A promise already resolved KEPT. -/
def exProm2 : Promise :=
  { promiseId := 2, customerId := 1, invoiceId := some 7, promiseDate := -40,
    promisedAmount := 300, promisedPaymentDate := -30, status := .KEPT,
    actualPaymentAmount := some 300 }

/-- Invoice 7 of customer 1, $1,000 outstanding, 45 days past due. -/
def exInv7 : Invoice :=
  { invoiceId := 7, customerId := 1, outstanding := 1000,
    daysPastDue := 45, status := "OPEN" }

/-- Tracker state for the reconciliation scenario: the $1,000 promise of
`exProm1`, a $950 payment applied to its invoice on day 2, and the resolved
`exProm2`. -/
def exC6db : DB :=
  { customers := [{ customerId := 1 }],
    invoices := [exInv7],
    payments := [{ invoiceId := 7, paymentDate := 2, appliedAmount := 950 }],
    promises := [exProm1, exProm2],
    nextPromiseId := 3 }

/-- An OPEN invoice with a positive outstanding balance that is not yet due:
`calculate_invoice_aging` stores the raw `julianday` difference, so
`days_past_due` is −90 for an invoice due 90 days from the as-of date. -/
def exInv9 : Invoice :=
  { invoiceId := 9, customerId := 1, outstanding := 500,
    daysPastDue := -90, status := "OPEN" }

/-- A long-standing VIP customer with reliability score 0, high lifetime
sales and no credit limit. -/
def exCust9 : Customer :=
  { customerId := 1, customerType := some "VIP", creditLimit := 0,
    paymentTermsDays := 30, avgDaysToPay := 30, paymentReliabilityScore := 0,
    totalSalesLifetime := 200000, customerSince := some (-3000) }

/-- Scorer state whose composite priority score is negative: the aging
component of the not-yet-due invoice is −72 and the code applies no clamp
to the weighted sum. -/
def exC9db : DB :=
  { customers := [exCust9], invoices := [exInv9] }

/-! ## Lemmas: the trigger scan -/

theorem createInstancesFor_fst (now : Int) (wid : Nat) :
    ∀ (l : List Invoice) (db : DB),
      (createInstancesFor now wid l db).1 =
        { db with instances := db.instances ++ mkNewInstances now wid db.nextInstanceId l,
                  nextInstanceId := db.nextInstanceId + l.length }
  | [], db => by simp [createInstancesFor, mkNewInstances]
  | inv :: rest, db => by
    simp only [createInstancesFor]
    rw [createInstancesFor_fst now wid rest]
    simp [_create_workflow_instance, mkNewInstances, newInstanceRow, DB.mk.injEq,
      List.append_assoc, Nat.add_assoc, Nat.add_comm 1 rest.length]

theorem scanWorkflow_fst (now : Int) (db : DB) (w : Workflow) :
    (scanWorkflow now db w).1 =
      { db with
        instances := db.instances ++ mkNewInstances now w.workflowId db.nextInstanceId
          (db.invoices.filter (invoiceMatches db w)),
        nextInstanceId := db.nextInstanceId + (db.invoices.filter (invoiceMatches db w)).length } := by
  simp [scanWorkflow, createInstancesFor_fst]

theorem swl_customers (now : Int) :
    ∀ (ws : List Workflow) (db : DB), ((scanWorkflowList now ws db).1).customers = db.customers
  | [], _ => rfl
  | w :: rest, db => by
    simp only [scanWorkflowList]
    rw [swl_customers now rest, scanWorkflow_fst]

theorem swl_invoices (now : Int) :
    ∀ (ws : List Workflow) (db : DB), ((scanWorkflowList now ws db).1).invoices = db.invoices
  | [], _ => rfl
  | w :: rest, db => by
    simp only [scanWorkflowList]
    rw [swl_invoices now rest, scanWorkflow_fst]

theorem swl_workflows (now : Int) :
    ∀ (ws : List Workflow) (db : DB), ((scanWorkflowList now ws db).1).workflows = db.workflows
  | [], _ => rfl
  | w :: rest, db => by
    simp only [scanWorkflowList]
    rw [swl_workflows now rest, scanWorkflow_fst]

theorem swl_steps (now : Int) :
    ∀ (ws : List Workflow) (db : DB), ((scanWorkflowList now ws db).1).steps = db.steps
  | [], _ => rfl
  | w :: rest, db => by
    simp only [scanWorkflowList]
    rw [swl_steps now rest, scanWorkflow_fst]

theorem coveredInvoice_append (l1 l2 : List WInstance) (i : Nat) :
    coveredInvoice (l1 ++ l2) i = (coveredInvoice l1 i || coveredInvoice l2 i) := by
  simp [coveredInvoice, List.any_append]

theorem swl_covered_mono (now : Int) :
    ∀ (ws : List Workflow) (db : DB) (i : Nat), coveredInvoice db.instances i = true →
      coveredInvoice ((scanWorkflowList now ws db).1).instances i = true
  | [], _, _, h => h
  | w :: rest, db, i, h => by
    simp only [scanWorkflowList]
    apply swl_covered_mono now rest
    rw [scanWorkflow_fst]
    simp [coveredInvoice_append, h]

theorem mkNew_covers (now : Int) (wid : Nat) :
    ∀ (nid : Nat) (l : List Invoice) (inv : Invoice), inv ∈ l →
      coveredInvoice (mkNewInstances now wid nid l) inv.invoiceId = true
  | nid, a :: rest, inv, h => by
    rcases List.mem_cons.mp h with h' | h'
    · subst h'
      simp [mkNewInstances, coveredInvoice, newInstanceRow, WStatus.isOutstanding]
    · simp only [mkNewInstances, coveredInvoice, List.any_cons]
      have := mkNew_covers now wid (nid + 1) rest inv h'
      simp [coveredInvoice] at this
      simp [this]

theorem scanWorkflow_covers (now : Int) (db : DB) (w : Workflow) (inv : Invoice)
    (hmem : inv ∈ db.invoices) (hbase : baseMatch db.customers w inv = true) :
    coveredInvoice ((scanWorkflow now db w).1).instances inv.invoiceId = true := by
  rw [scanWorkflow_fst]
  by_cases h : coveredInvoice db.instances inv.invoiceId = true
  · simp [coveredInvoice_append, h]
  · have hm : inv ∈ db.invoices.filter (invoiceMatches db w) := by
      rw [List.mem_filter]
      refine ⟨hmem, ?_⟩
      simp [invoiceMatches, hbase]
      simpa using h
    simp [coveredInvoice_append, mkNew_covers now w.workflowId db.nextInstanceId _ inv hm]

theorem swl_covers (now : Int) :
    ∀ (ws : List Workflow) (db : DB) (w : Workflow), w ∈ ws →
      ∀ inv ∈ db.invoices, baseMatch db.customers w inv = true →
        coveredInvoice ((scanWorkflowList now ws db).1).instances inv.invoiceId = true
  | w0 :: rest, db, w, hw, inv, hinv, hbase => by
    simp only [scanWorkflowList]
    rcases List.mem_cons.mp hw with h' | h'
    · subst h'
      exact swl_covered_mono now rest _ _ (scanWorkflow_covers now db w inv hinv hbase)
    · apply swl_covers now rest _ w h' inv
      · rw [scanWorkflow_fst]; exact hinv
      · rw [scanWorkflow_fst]; exact hbase

theorem swl_nil_of_no_match (now : Int) :
    ∀ (ws : List Workflow) (db : DB),
      (∀ w ∈ ws, db.invoices.filter (invoiceMatches db w) = []) →
      scanWorkflowList now ws db = (db, [])
  | [], db, _ => rfl
  | w :: rest, db, h => by
    have hw : scanWorkflow now db w = (db, []) := by
      simp [scanWorkflow, h w (List.mem_cons_self w rest), createInstancesFor]
    simp only [scanWorkflowList, hw]
    rw [swl_nil_of_no_match now rest db (fun w' hw' => h w' (List.mem_cons_of_mem w hw'))]
    rfl

/-- C1.  Running `trigger_workflows` twice in succession with no other state
change in between creates zero instances on the second run: every invoice
that still matches some active definition's trigger is covered by a
PENDING/ACTIVE instance after the first run, so the dedup `NOT IN` clause
excludes it. -/
theorem C1_scan_twice_creates_nothing (now1 now2 : Int) (db : DB) :
    (trigger_workflows now2 (trigger_workflows now1 db).1).2 = [] := by
  have hcov := swl_covers now1 (db.workflows.filter (·.isActive)) db
  have hnil : ∀ w ∈ ((trigger_workflows now1 db).1).workflows.filter (·.isActive),
      ((trigger_workflows now1 db).1).invoices.filter
        (invoiceMatches (trigger_workflows now1 db).1 w) = [] := by
    intro w hw
    rw [List.filter_eq_nil_iff]
    intro inv hinv
    simp only [trigger_workflows, swl_workflows, swl_invoices] at hw hinv
    simp only [invoiceMatches, Bool.and_eq_true, Bool.not_eq_true', not_and]
    intro hbase
    have hbase' : baseMatch db.customers w inv = true := by
      simpa only [trigger_workflows, swl_customers] using hbase
    have h2 : coveredInvoice ((trigger_workflows now1 db).1).instances inv.invoiceId = true := by
      simpa only [trigger_workflows] using hcov w hw inv hinv hbase'
    simp [h2]
  show (scanWorkflowList now2 _ _).2 = []
  rw [swl_nil_of_no_match now2 _ _ hnil]

/-! ## Lemmas: counting created instances (C2) -/

theorem mkNew_count_inv (now : Int) (wid : Nat) :
    ∀ (nid : Nat) (l : List Invoice) (i : Nat),
      (mkNewInstances now wid nid l).countP (fun w => w.invoiceId == some i)
        = l.countP (fun inv => inv.invoiceId == i)
  | _, [], _ => rfl
  | nid, inv :: rest, i => by
    simp only [mkNewInstances, List.countP_cons]
    rw [mkNew_count_inv now wid (nid + 1) rest i]
    rfl

theorem mkNew_count_pa (now : Int) (wid : Nat) :
    ∀ (nid : Nat) (l : List Invoice) (i : Nat),
      (mkNewInstances now wid nid l).countP
          (fun w => w.status.isOutstanding && (w.invoiceId == some i))
        = l.countP (fun inv => inv.invoiceId == i)
  | _, [], _ => rfl
  | nid, inv :: rest, i => by
    simp only [mkNewInstances, List.countP_cons]
    rw [mkNew_count_pa now wid (nid + 1) rest i]
    rfl

theorem covered_false_iff (insts : List WInstance) (i : Nat) :
    coveredInvoice insts i = false ↔
      insts.countP (fun w => w.status.isOutstanding && (w.invoiceId == some i)) = 0 := by
  rw [coveredInvoice, List.any_eq_false, List.countP_eq_zero]

theorem countP_key_eq_one {α : Type} (key : α → Nat) :
    ∀ (l : List α), (l.map key).Nodup → ∀ a ∈ l,
      l.countP (fun x => key x == key a) = 1
  | b :: t, hnd, a, ha => by
    rw [List.map_cons, List.nodup_cons] at hnd
    rcases List.mem_cons.mp ha with h' | h'
    · subst h'
      have hz : t.countP (fun x => key x == key a) = 0 := by
        rw [List.countP_eq_zero]
        intro x hx hxe
        exact hnd.1 (List.mem_map.mpr ⟨x, hx, by simpa using hxe⟩)
      simp [List.countP_cons, hz]
    · have hne : (key b == key a) = false := by
        by_contra hc
        have : key b = key a := by
          have := eq_true_of_ne_false hc
          simpa using this
        exact hnd.1 (this ▸ List.mem_map.mpr ⟨a, h', rfl⟩)
      rw [List.countP_cons]
      simp [hne, countP_key_eq_one key t hnd.2 a h']

theorem countP_matched_of_base (db : DB) (w : Workflow) (inv : Invoice)
    (hnd : (db.invoices.map (·.invoiceId)).Nodup) (hmem : inv ∈ db.invoices)
    (hcov : coveredInvoice db.instances inv.invoiceId = false)
    (hb : baseMatch db.customers w inv = true) :
    (db.invoices.filter (invoiceMatches db w)).countP
      (fun x => x.invoiceId == inv.invoiceId) = 1 := by
  have hmm : inv ∈ db.invoices.filter (invoiceMatches db w) := by
    rw [List.mem_filter]
    exact ⟨hmem, by simp [invoiceMatches, hb, hcov]⟩
  have hone : db.invoices.countP (fun x => x.invoiceId == inv.invoiceId) = 1 :=
    countP_key_eq_one (·.invoiceId) db.invoices hnd inv hmem
  have hle : (db.invoices.filter (invoiceMatches db w)).countP
      (fun x => x.invoiceId == inv.invoiceId) ≤ 1 := by
    calc (db.invoices.filter (invoiceMatches db w)).countP (fun x => x.invoiceId == inv.invoiceId)
        = db.invoices.countP (fun x => (x.invoiceId == inv.invoiceId) && invoiceMatches db w x) :=
          List.countP_filter ..
      _ ≤ db.invoices.countP (fun x => x.invoiceId == inv.invoiceId) :=
          List.countP_mono_left (fun x _ hx => by
            simp only [Bool.and_eq_true] at hx
            exact hx.1)
      _ = 1 := hone
  have hge : 0 < (db.invoices.filter (invoiceMatches db w)).countP
      (fun x => x.invoiceId == inv.invoiceId) :=
    (List.countP_pos_iff).mpr ⟨inv, hmm, by simp⟩
  omega

theorem countP_matched_of_not_base (db : DB) (w : Workflow) (inv : Invoice)
    (hnd : (db.invoices.map (·.invoiceId)).Nodup) (hmem : inv ∈ db.invoices)
    (hb : ¬baseMatch db.customers w inv = true) :
    (db.invoices.filter (invoiceMatches db w)).countP
      (fun x => x.invoiceId == inv.invoiceId) = 0 := by
  rw [List.countP_eq_zero]
  intro x hx hxe
  have hx' := List.mem_filter.mp hx
  have hxe' : x.invoiceId = inv.invoiceId := by simpa using hxe
  have : x = inv :=
    List.inj_on_of_nodup_map hnd hx'.1 hmem hxe'
  subst this
  have := hx'.2
  simp only [invoiceMatches, Bool.and_eq_true] at this
  exact hb this.1

theorem countP_matched_of_covered (db : DB) (w : Workflow) (i : Nat)
    (hcov : coveredInvoice db.instances i = true) :
    (db.invoices.filter (invoiceMatches db w)).countP
      (fun x => x.invoiceId == i) = 0 := by
  rw [List.countP_eq_zero]
  intro x hx hxe
  have hx' := (List.mem_filter.mp hx).2
  simp only [invoiceMatches, Bool.and_eq_true, Bool.not_eq_true'] at hx'
  have hxe' : x.invoiceId = i := by simpa using hxe
  rw [hxe', hcov] at hx'
  exact Bool.noConfusion hx'.2

theorem swl_tail (now : Int) :
    ∀ (ws : List Workflow) (db : DB),
      ∃ tl, ((scanWorkflowList now ws db).1).instances = db.instances ++ tl ∧
        ∀ i, coveredInvoice db.instances i = true →
          tl.countP (fun w => w.invoiceId == some i) = 0
  | [], db => ⟨[], by simp [scanWorkflowList], fun _ _ => rfl⟩
  | w :: rest, db => by
    obtain ⟨tl2, htl2, hc2⟩ := swl_tail now rest ((scanWorkflow now db w).1)
    refine ⟨mkNewInstances now w.workflowId db.nextInstanceId
      (db.invoices.filter (invoiceMatches db w)) ++ tl2, ?_, ?_⟩
    · simp only [scanWorkflowList]
      rw [htl2, scanWorkflow_fst]
      simp [List.append_assoc]
    · intro i hcov
      rw [List.countP_append]
      have h1 : (mkNewInstances now w.workflowId db.nextInstanceId
          (db.invoices.filter (invoiceMatches db w))).countP
          (fun w' => w'.invoiceId == some i) = 0 := by
        rw [mkNew_count_inv]
        exact countP_matched_of_covered db w i hcov
      have h2 : tl2.countP (fun w' => w'.invoiceId == some i) = 0 := by
        apply hc2
        rw [scanWorkflow_fst]
        simp [coveredInvoice_append, hcov]
      omega

theorem swl_creates_unique (now : Int) :
    ∀ (ws : List Workflow) (db : DB) (inv : Invoice),
      (db.invoices.map (·.invoiceId)).Nodup → inv ∈ db.invoices →
      coveredInvoice db.instances inv.invoiceId = false →
      (∃ w ∈ ws, baseMatch db.customers w inv = true) →
      ((scanWorkflowList now ws db).1).instances.countP
        (fun w => w.status.isOutstanding && (w.invoiceId == some inv.invoiceId)) = 1
  | [], _, _, _, _, _, hex => absurd hex (by simp)
  | w :: rest, db, inv, hnd, hmem, hcov, hex => by
    by_cases hb : baseMatch db.customers w inv = true
    · -- this definition creates the single instance; the rest skip the invoice
      have hm1 : (mkNewInstances now w.workflowId db.nextInstanceId
          (db.invoices.filter (invoiceMatches db w))).countP
          (fun w' => w'.status.isOutstanding && (w'.invoiceId == some inv.invoiceId)) = 1 := by
        rw [mkNew_count_pa]
        exact countP_matched_of_base db w inv hnd hmem hcov hb
      have hz : db.instances.countP
          (fun w' => w'.status.isOutstanding && (w'.invoiceId == some inv.invoiceId)) = 0 :=
        (covered_false_iff _ _).mp hcov
      obtain ⟨tl2, htl2, hc2⟩ := swl_tail now rest ((scanWorkflow now db w).1)
      have hcov1 : coveredInvoice ((scanWorkflow now db w).1).instances inv.invoiceId = true :=
        scanWorkflow_covers now db w inv hmem hb
      have htlz : tl2.countP (fun w' => w'.invoiceId == some inv.invoiceId) = 0 :=
        hc2 inv.invoiceId hcov1
      have htlz' : tl2.countP
          (fun w' => w'.status.isOutstanding && (w'.invoiceId == some inv.invoiceId)) = 0 := by
        have hle : tl2.countP
            (fun w' => w'.status.isOutstanding && (w'.invoiceId == some inv.invoiceId))
            ≤ tl2.countP (fun w' => w'.invoiceId == some inv.invoiceId) :=
          List.countP_mono_left (fun x _ hx => by
            simp only [Bool.and_eq_true] at hx
            exact hx.2)
        omega
      simp only [scanWorkflowList]
      rw [htl2, scanWorkflow_fst]
      simp only [List.countP_append]
      rw [hz, hm1, htlz']
    · -- this definition skips the invoice entirely
      have hm0 : (mkNewInstances now w.workflowId db.nextInstanceId
          (db.invoices.filter (invoiceMatches db w))).countP
          (fun w' => w'.status.isOutstanding && (w'.invoiceId == some inv.invoiceId)) = 0 := by
        rw [mkNew_count_pa]
        exact countP_matched_of_not_base db w inv hnd hmem hb
      have hcov1 : coveredInvoice ((scanWorkflow now db w).1).instances inv.invoiceId = false := by
        rw [covered_false_iff]
        rw [scanWorkflow_fst]
        simp only [List.countP_append]
        rw [(covered_false_iff _ _).mp hcov, hm0]
      have hex' : ∃ w' ∈ rest, baseMatch ((scanWorkflow now db w).1).customers w' inv = true := by
        obtain ⟨w', hw', hbw'⟩ := hex
        rcases List.mem_cons.mp hw' with h' | h'
        · exact absurd (h' ▸ hbw') hb
        · exact ⟨w', h', by rw [scanWorkflow_fst]; exact hbw'⟩
      have := swl_creates_unique now rest ((scanWorkflow now db w).1) inv
        (by rw [scanWorkflow_fst]; exact hnd)
        (by rw [scanWorkflow_fst]; exact hmem) hcov1 hex'
      simpa only [scanWorkflowList] using this

/-- C2 counterexample.  In `exC2db`, definition 2 is active, invoice 7
satisfies its trigger and no PENDING/ACTIVE instance of definition 2 (or any
other) exists; the claim demands a new PENDING instance for the pair
(definition 2, invoice 7).  The scan creates only one instance in total —
for definition 1 — and none for definition 2: the dedup clause excludes
invoices covered by an instance of *any* definition. -/
theorem C2_counterexample :
    (exC2db.workflows.filter (·.isActive)
      = [{ workflowId := 1, daysPastDueTrigger := 31, amountThreshold := 500 },
         { workflowId := 2, daysPastDueTrigger := 1, amountThreshold := 100 }])
    ∧ baseMatch exC2db.customers
        { workflowId := 2, daysPastDueTrigger := 1, amountThreshold := 100 }
        { invoiceId := 7, customerId := 1, outstanding := 5000,
          daysPastDue := 45, status := "OPEN" } = true
    ∧ coveredInvoice exC2db.instances 7 = false
    ∧ ((trigger_workflows 0 exC2db).1).instances.countP
        (fun w => w.workflowId == 2 && (w.invoiceId == some 7)) = 0
    ∧ ((trigger_workflows 0 exC2db).2).length = 1 := by
  decide

/-- C2 (amended).  A scan excludes an invoice whenever *any* PENDING/ACTIVE
instance covers it (not only one of the same definition, and including
instances created earlier in the same run): an invoice not covered at scan
start that qualifies under at least one active definition ends the scan
covered by exactly one PENDING/ACTIVE instance (created by the first such
definition in execution order), and an invoice already covered gains no
instance of any kind. -/
theorem C2_single_instance_per_invoice (now : Int) (db : DB) (inv : Invoice)
    (hnd : (db.invoices.map (·.invoiceId)).Nodup) (hmem : inv ∈ db.invoices) :
    (coveredInvoice db.instances inv.invoiceId = false →
      (∃ w ∈ db.workflows.filter (·.isActive), baseMatch db.customers w inv = true) →
      ((trigger_workflows now db).1).instances.countP
        (fun w => w.status.isOutstanding && (w.invoiceId == some inv.invoiceId)) = 1)
    ∧ (coveredInvoice db.instances inv.invoiceId = true →
      ((trigger_workflows now db).1).instances.countP
          (fun w => w.invoiceId == some inv.invoiceId)
        = db.instances.countP (fun w => w.invoiceId == some inv.invoiceId)) := by
  constructor
  · intro hcov hex
    exact swl_creates_unique now (db.workflows.filter (·.isActive)) db inv hnd hmem hcov hex
  · intro hcov
    obtain ⟨tl, htl, hc⟩ := swl_tail now (db.workflows.filter (·.isActive)) db
    show ((scanWorkflowList now (db.workflows.filter (·.isActive)) db).1).instances.countP _ = _
    rw [htl, List.countP_append, hc inv.invoiceId hcov]
    omega

/-- C2 witness: in `exC2db` with no pre-existing instances, invoice 7 is
uncovered and matched, so the scan leaves exactly one PENDING/ACTIVE
instance carrying it. -/
theorem C2_witness :
    ((trigger_workflows 0 exC2db).1).instances.countP
      (fun w => w.status.isOutstanding && (w.invoiceId == some 7)) = 1 := by
  have h := C2_single_instance_per_invoice 0 exC2db
    { invoiceId := 7, customerId := 1, outstanding := 5000,
      daysPastDue := 45, status := "OPEN" }
    (by decide) (by decide)
  exact h.1 (by decide)
    ⟨{ workflowId := 1, daysPastDueTrigger := 31, amountThreshold := 500 },
      by decide, by decide⟩

/-! ## Lemmas: keyed row updates (shared by the engine and the tracker) -/

theorem find?_mapIf_other {α : Type} (key : α → Nat) (f : α → α)
    (hf : ∀ x, key (f x) = key x) (iid j : Nat) (hne : j ≠ iid) :
    ∀ l : List α,
      (l.map (fun x => if key x == iid then f x else x)).find? (fun x => key x == j)
        = l.find? (fun x => key x == j)
  | [] => rfl
  | b :: t => by
    simp only [List.map_cons]
    by_cases hb : (key b == iid) = true
    · rw [if_pos hb]
      have hbj : (key (f b) == j) = false := by
        have : key b = iid := by simpa using hb
        simp [hf, this, Ne.symm hne]
      have hbj' : (key b == j) = false := by
        have : key b = iid := by simpa using hb
        simp [this, Ne.symm hne]
      rw [List.find?_cons_of_neg (p := fun x => key x == j) _ (by simp [hbj]),
        List.find?_cons_of_neg (p := fun x => key x == j) _ (by simp [hbj'])]
      exact find?_mapIf_other key f hf iid j hne t
    · rw [if_neg hb]
      by_cases hbj : (key b == j) = true
      · rw [List.find?_cons_of_pos (p := fun x => key x == j) _ hbj,
          List.find?_cons_of_pos (p := fun x => key x == j) _ hbj]
      · rw [List.find?_cons_of_neg (p := fun x => key x == j) _ (by simpa using hbj),
          List.find?_cons_of_neg (p := fun x => key x == j) _ (by simpa using hbj)]
        exact find?_mapIf_other key f hf iid j hne t

theorem find?_mapIf_self {α : Type} (key : α → Nat) (f : α → α)
    (hf : ∀ x, key (f x) = key x) (iid : Nat) :
    ∀ (l : List α) (x0 : α), l.find? (fun x => key x == iid) = some x0 →
      (l.map (fun x => if key x == iid then f x else x)).find? (fun x => key x == iid)
        = some (f x0)
  | b :: t, x0, h => by
    simp only [List.map_cons]
    by_cases hb : (key b == iid) = true
    · rw [List.find?_cons_of_pos (p := fun x => key x == iid) _ hb] at h
      injection h with h
      subst h
      rw [if_pos hb]
      rw [List.find?_cons_of_pos (p := fun x => key x == iid) _ (by simp [hf]; simpa using hb)]
    · rw [List.find?_cons_of_neg (p := fun x => key x == iid) _ (by simpa using hb)] at h
      rw [if_neg hb, List.find?_cons_of_neg (p := fun x => key x == iid) _ (by simpa using hb)]
      exact find?_mapIf_self key f hf iid t x0 h

theorem map_key_mapIf {α : Type} (key : α → Nat) (f : α → α)
    (hf : ∀ x, key (f x) = key x) (iid : Nat) (l : List α) :
    (l.map (fun x => if key x == iid then f x else x)).map key = l.map key := by
  rw [List.map_map]
  apply List.map_congr_left
  intro a _
  by_cases h : (key a == iid) = true <;> simp [Function.comp, h, hf]

theorem find?_key_of_mem_nodup {α : Type} (key : α → Nat) :
    ∀ (l : List α), (l.map key).Nodup → ∀ a ∈ l, l.find? (fun x => key x == key a) = some a
  | b :: t, hnd, a, ha => by
    rw [List.map_cons, List.nodup_cons] at hnd
    by_cases hb : (key b == key a) = true
    · rw [List.find?_cons_of_pos (p := fun x => key x == key a) _ hb]
      rcases List.mem_cons.mp ha with h' | h'
      · rw [h']
      · refine absurd (List.mem_map.mpr ⟨a, h', ?_⟩) (by simpa using hnd.1)
        have h2 : key b = key a := by simpa using hb
        exact h2.symm
    · rw [List.find?_cons_of_neg (p := fun x => key x == key a) _ (by simpa using hb)]
      rcases List.mem_cons.mp ha with h' | h'
      · subst h'; simp at hb
      · exact find?_key_of_mem_nodup key t hnd.2 a h'

/-! ## Lemmas: the execute path -/

theorem execOne_eq_update (now : Int) (act : ActionOracle) (db : DB) (iid : Nat) :
    ∃ g, execOne now act db iid = updateInstance db iid g ∧
      ∀ w, (g w).instanceId = w.instanceId := by
  simp only [execOne, _execute_workflow_instance]
  rcases h1 : db.instances.find? (fun w => w.instanceId == iid) with _ | inst
  · simp only [h1]
    exact ⟨_, rfl, fun _ => rfl⟩
  · simp only [h1]
    rcases h2 : findStep db.steps inst.workflowId (inst.currentStep + 1) with _ | step
    · simp only [h2]
      exact ⟨_, rfl, fun _ => rfl⟩
    · simp only [h2]
      rcases h3 : act step.actionType inst.customerId inst.invoiceId with msg | u
      · simp only [h3]
        exact ⟨_, rfl, fun _ => rfl⟩
      · simp only [h3]
        exact ⟨_, rfl, fun _ => rfl⟩

theorem execOne_steps (now : Int) (act : ActionOracle) (db : DB) (iid : Nat) :
    (execOne now act db iid).steps = db.steps := by
  obtain ⟨g, hg, _⟩ := execOne_eq_update now act db iid
  rw [hg]
  rfl

theorem execOne_map_ids (now : Int) (act : ActionOracle) (db : DB) (iid : Nat) :
    (execOne now act db iid).instances.map (·.instanceId)
      = db.instances.map (·.instanceId) := by
  obtain ⟨g, hg, hgid⟩ := execOne_eq_update now act db iid
  rw [hg]
  exact map_key_mapIf (·.instanceId) g hgid iid db.instances

theorem execOne_find_other (now : Int) (act : ActionOracle) (db : DB) (iid : Nat)
    (x : WInstance) (hne : x.instanceId ≠ iid)
    (hx : db.instances.find? (fun w => w.instanceId == x.instanceId) = some x) :
    (execOne now act db iid).instances.find? (fun w => w.instanceId == x.instanceId)
      = some x := by
  obtain ⟨g, hg, hgid⟩ := execOne_eq_update now act db iid
  rw [hg]
  show (db.instances.map _).find? _ = some x
  rw [find?_mapIf_other (·.instanceId) g hgid iid x.instanceId hne db.instances]
  exact hx

theorem execOne_find_self (now : Int) (act : ActionOracle) (db : DB) (x : WInstance)
    (hx : db.instances.find? (fun w => w.instanceId == x.instanceId) = some x) :
    (execOne now act db x.instanceId).instances.find?
        (fun w => w.instanceId == x.instanceId)
      = some (stepResult now act db.steps x) := by
  simp only [execOne, _execute_workflow_instance, stepResult, hx]
  rcases hs : findStep db.steps x.workflowId (x.currentStep + 1) with _ | step
  · simp only [hs]
    exact find?_mapIf_self (·.instanceId)
      (fun w => { w with status := .COMPLETED, completedDate := some now })
      (fun _ => rfl) x.instanceId db.instances x hx
  · simp only [hs]
    rcases ha : act step.actionType x.customerId x.invoiceId with msg | u
    · simp only [ha]
      exact find?_mapIf_self (·.instanceId)
        (fun w => { w with status := .FAILED, failureReason := some msg })
        (fun _ => rfl) x.instanceId db.instances x hx
    · simp only [ha]
      exact find?_mapIf_self (·.instanceId)
        (fun w => { w with
          currentStep := x.currentStep + 1,
          scheduledDate := if step.delayDays ≠ 0 then now + step.delayDays else now,
          lastActionDate := some now,
          status := if maxStepOrder db.steps x.workflowId = some (x.currentStep + 1)
                    then WStatus.COMPLETED else WStatus.ACTIVE })
        (fun _ => rfl) x.instanceId db.instances x hx

theorem stepResult_id (now : Int) (act : ActionOracle) (steps : List WStep) (x : WInstance) :
    (stepResult now act steps x).instanceId = x.instanceId := by
  simp only [stepResult]
  split
  · rfl
  · split <;> rfl

theorem epl_fst_cons (now : Int) (act : ActionOracle) (iid : Nat) (rest : List Nat) (db : DB) :
    (executePendingList now act (iid :: rest) db).1
      = (executePendingList now act rest (execOne now act db iid)).1 := by
  simp only [executePendingList, execOne]
  rcases h : _execute_workflow_instance now act db iid with ⟨db1, out⟩
  cases out <;> simp

theorem epl_find_other (now : Int) (act : ActionOracle) :
    ∀ (ids : List Nat) (db : DB) (x : WInstance),
      (∀ i ∈ ids, i ≠ x.instanceId) →
      db.instances.find? (fun w => w.instanceId == x.instanceId) = some x →
      (executePendingList now act ids db).1.instances.find?
        (fun w => w.instanceId == x.instanceId) = some x
  | [], _, _, _, hx => hx
  | iid :: rest, db, x, hne, hx => by
    rw [epl_fst_cons]
    exact epl_find_other now act rest _ x
      (fun i hi => hne i (List.mem_cons_of_mem _ hi))
      (execOne_find_other now act db iid x
        (fun h => hne iid (List.mem_cons_self _ _) h.symm) hx)

theorem epl_steps (now : Int) (act : ActionOracle) :
    ∀ (ids : List Nat) (db : DB), (executePendingList now act ids db).1.steps = db.steps
  | [], _ => rfl
  | iid :: rest, db => by
    rw [epl_fst_cons, epl_steps now act rest, execOne_steps]

theorem epl_map_ids (now : Int) (act : ActionOracle) :
    ∀ (ids : List Nat) (db : DB),
      (executePendingList now act ids db).1.instances.map (·.instanceId)
        = db.instances.map (·.instanceId)
  | [], _ => rfl
  | iid :: rest, db => by
    rw [epl_fst_cons, epl_map_ids now act rest, execOne_map_ids]

theorem epl_find_self (now : Int) (act : ActionOracle) :
    ∀ (ids : List Nat) (db : DB) (x : WInstance), ids.Nodup → x.instanceId ∈ ids →
      db.instances.find? (fun w => w.instanceId == x.instanceId) = some x →
      (executePendingList now act ids db).1.instances.find?
        (fun w => w.instanceId == x.instanceId) = some (stepResult now act db.steps x)
  | iid :: rest, db, x, hnd, hmem, hx => by
    rw [List.nodup_cons] at hnd
    rw [epl_fst_cons]
    rcases List.mem_cons.mp hmem with h' | h'
    · subst h'
      have h1 := execOne_find_self now act db x hx
      have hid := stepResult_id now act db.steps x
      have h2 := epl_find_other now act rest (execOne now act db x.instanceId)
        (stepResult now act db.steps x)
        (fun i hi he => hnd.1 (by rw [hid] at he; exact he ▸ hi))
        (by rw [hid]; exact h1)
      rw [hid] at h2
      exact h2
    · have hne : x.instanceId ≠ iid := fun h => hnd.1 (h ▸ h')
      have h1 := execOne_find_other now act db iid x hne hx
      have h2 := epl_find_self now act rest (execOne now act db iid) x hnd.2 h' h1
      rwa [execOne_steps] at h2

theorem isPending_iff (s : WStatus) : s.isPending = true ↔ s = .PENDING := by
  cases s <;> simp [WStatus.isPending]

theorem mem_duePending (now : Int) (db : DB) (x : WInstance) (hx : x ∈ db.instances)
    (hp : x.status = .PENDING) (hs : x.scheduledDate ≤ now) :
    x.instanceId ∈ duePending now db := by
  apply List.mem_map.mpr
  refine ⟨x, List.mem_filter.mpr ⟨hx, ?_⟩, rfl⟩
  simp [isPending_iff, hp, hs]

theorem not_mem_duePending (now : Int) (db : DB) (x : WInstance)
    (hnd : (db.instances.map (·.instanceId)).Nodup) (hx : x ∈ db.instances)
    (hnp : ¬(x.status = .PENDING ∧ x.scheduledDate ≤ now)) :
    x.instanceId ∉ duePending now db := by
  intro hmem
  obtain ⟨y, hy, hyi⟩ := List.mem_map.mp hmem
  have hy' := List.mem_filter.mp hy
  have : y = x := List.inj_on_of_nodup_map hnd hy'.1 hx hyi
  subst this
  have := hy'.2
  simp only [Bool.and_eq_true, decide_eq_true_eq, isPending_iff] at this
  exact hnp this

theorem duePending_nodup (now : Int) (db : DB)
    (hnd : (db.instances.map (·.instanceId)).Nodup) : (duePending now db).Nodup := by
  have h : (duePending now db).Sublist (db.instances.map (·.instanceId)) := by
    simp only [duePending]
    exact (List.filter_sublist db.instances).map _
  exact hnd.sublist h

/-- C3 counterexample.  In `exC3db` the instance is at step 0; executing it
at time 100 runs step 1 (delay 0) while step 2 has delay 7.  The claim
predicts `scheduled-for = 100 + 7`; the code reschedules at `100 + 0 = 100`,
using the *executed* step's delay.  And in the single-step `exC5db`,
executing the final step at time 10 overwrites `scheduled-for` with 10
instead of leaving it at its previous value 0. -/
theorem C3_counterexample :
    (((execute_pending_workflows 100 actOk exC3db).1.instances.find?
        (fun w => w.instanceId == 0)).map
        (fun w => (w.currentStep, w.scheduledDate, w.status))
      = some (1, 100, WStatus.ACTIVE))
    ∧ ((100 : Int) + 7 ≠ 100)
    ∧ (((execute_pending_workflows 10 actOk exC5db).1.instances.find?
        (fun w => w.instanceId == 0)).map (fun w => w.scheduledDate) = some 10)
    ∧ ((0 : Int) ≠ 10) := by
  refine ⟨by decide, by decide, by decide, by decide⟩

/-- C3 (amended).  When the step at `currentStep + 1` exists and its action
succeeds, `_execute_workflow_instance` increments `currentStep` by one, sets
scheduled-for to now plus the *executed* step's delay-days (now itself when
that delay is 0) — also when the executed step was the final one — and sets
the status to COMPLETED when the new step counter equals the workflow's
maximum step order, ACTIVE otherwise; the completion date and retry count
are untouched. -/
theorem C3_step_success_update (now : Int) (act : ActionOracle) (db : DB)
    (x : WInstance) (step : WStep)
    (hx : db.instances.find? (fun w => w.instanceId == x.instanceId) = some x)
    (hstep : findStep db.steps x.workflowId (x.currentStep + 1) = some step)
    (hact : act step.actionType x.customerId x.invoiceId = .ok ()) :
    ∃ x', ((_execute_workflow_instance now act db x.instanceId).1).instances.find?
        (fun w => w.instanceId == x.instanceId) = some x'
      ∧ x'.currentStep = x.currentStep + 1
      ∧ x'.scheduledDate = (if step.delayDays ≠ 0 then now + step.delayDays else now)
      ∧ x'.status = (if maxStepOrder db.steps x.workflowId = some (x.currentStep + 1)
                     then WStatus.COMPLETED else WStatus.ACTIVE)
      ∧ x'.completedDate = x.completedDate
      ∧ x'.retryCount = x.retryCount := by
  have h : ((_execute_workflow_instance now act db x.instanceId).1).instances.find?
      (fun w => w.instanceId == x.instanceId)
      = some { x with
          currentStep := x.currentStep + 1,
          scheduledDate := if step.delayDays ≠ 0 then now + step.delayDays else now,
          lastActionDate := some now,
          status := if maxStepOrder db.steps x.workflowId = some (x.currentStep + 1)
                    then WStatus.COMPLETED else WStatus.ACTIVE } := by
    simp only [_execute_workflow_instance, hx, hstep, hact]
    exact find?_mapIf_self (·.instanceId)
      (fun w => { w with
        currentStep := x.currentStep + 1,
        scheduledDate := if step.delayDays ≠ 0 then now + step.delayDays else now,
        lastActionDate := some now,
        status := if maxStepOrder db.steps x.workflowId = some (x.currentStep + 1)
                  then WStatus.COMPLETED else WStatus.ACTIVE })
      (fun _ => rfl) x.instanceId db.instances x hx
  exact ⟨_, h, rfl, rfl, rfl, rfl, rfl⟩

/-- C3 witness: executing the due instance of `exC3db` at time 100 advances
it to step 1, reschedules at 100 (the executed step's delay is 0) and marks
it ACTIVE. -/
theorem C3_witness :
    ∃ x', ((_execute_workflow_instance 100 actOk exC3db 0).1).instances.find?
        (fun w => w.instanceId == 0) = some x'
      ∧ x'.currentStep = 0 + 1
      ∧ x'.scheduledDate = (if exStep1.delayDays ≠ 0 then 100 + exStep1.delayDays else 100)
      ∧ x'.status = (if maxStepOrder exC3db.steps 1 = some (0 + 1)
                     then WStatus.COMPLETED else WStatus.ACTIVE)
      ∧ x'.completedDate = none
      ∧ x'.retryCount = 0 :=
  C3_step_success_update 100 actOk exC3db exInst0 exStep1 (by decide) (by decide) rfl

/-- C4 counterexample.  Executing the due instance of `exC5db` with a
raising action leaves `retry_count` at 0 — `_mark_instance_failed` only
writes `status` and `failure_reason` — while the claim demands the retry
count be incremented to 1. -/
theorem C4_counterexample :
    (((execute_pending_workflows 10 actBoom exC5db).1.instances.find?
        (fun w => w.instanceId == 0)).map
        (fun w => (w.status, w.failureReason, w.retryCount))
      = some (WStatus.FAILED, some "boom", 0))
    ∧ (0 : Nat) ≠ 0 + 1 := by
  refine ⟨by decide, by decide⟩

/-- C4 (amended).  When a due PENDING instance's step action raises,
`execute_pending_workflows` marks it FAILED and stores the failure reason,
leaving the retry count unchanged; a FAILED instance is never selected by
any subsequent `execute_pending_workflows` run (the due query demands
status PENDING). -/
theorem C4_fail_stop (now now2 : Int) (act : ActionOracle) (db : DB)
    (x : WInstance) (step : WStep) (msg : String)
    (hnd : (db.instances.map (·.instanceId)).Nodup)
    (hx : db.instances.find? (fun w => w.instanceId == x.instanceId) = some x)
    (hp : x.status = .PENDING) (hs : x.scheduledDate ≤ now)
    (hstep : findStep db.steps x.workflowId (x.currentStep + 1) = some step)
    (hact : act step.actionType x.customerId x.invoiceId = .error msg) :
    ∃ x', ((execute_pending_workflows now act db).1).instances.find?
        (fun w => w.instanceId == x.instanceId) = some x'
      ∧ x'.status = .FAILED
      ∧ x'.failureReason = some msg
      ∧ x'.retryCount = x.retryCount
      ∧ x'.instanceId ∉ duePending now2 (execute_pending_workflows now act db).1 := by
  have hmem : x ∈ db.instances := List.mem_of_find?_eq_some hx
  have hin : x.instanceId ∈ duePending now db := mem_duePending now db x hmem hp hs
  have hdnd : (duePending now db).Nodup := duePending_nodup now db hnd
  have h := epl_find_self now act (duePending now db) db x hdnd hin hx
  simp only [stepResult, hstep, hact] at h
  refine ⟨_, h, rfl, rfl, rfl, ?_⟩
  have hnd' : (((execute_pending_workflows now act db).1).instances.map
      (·.instanceId)).Nodup := by
    show (((executePendingList now act (duePending now db) db).1).instances.map
      (·.instanceId)).Nodup
    rw [epl_map_ids]
    exact hnd
  exact not_mem_duePending now2 _ _ hnd' (List.mem_of_find?_eq_some h)
    (fun hc => by simp at hc)

/-- C4 witness: the raising oracle on `exC5db` produces a FAILED instance
with reason "boom", retry count still 0, never selected again. -/
theorem C4_witness :
    ∃ x', ((execute_pending_workflows 10 actBoom exC5db).1).instances.find?
        (fun w => w.instanceId == 0) = some x'
      ∧ x'.status = .FAILED
      ∧ x'.failureReason = some "boom"
      ∧ x'.retryCount = 0
      ∧ x'.instanceId ∉ duePending 99 (execute_pending_workflows 10 actBoom exC5db).1 :=
  C4_fail_stop 10 99 actBoom exC5db exInst0 exStep1 "boom"
    (by decide) (by decide) (by decide) (by decide) (by decide) rfl

/-- C5 counterexample.  Executing the final (single) step of `exC5db`'s
instance succeeds: the status becomes COMPLETED via the SQL CASE, but
`completed_date` is left NULL — it is only written by
`_mark_instance_completed`, which runs on the separate "no more steps" path
— while the claim demands the completed date be set. -/
theorem C5_counterexample :
    ((execute_pending_workflows 10 actOk exC5db).1.instances.find?
        (fun w => w.instanceId == 0)).map
        (fun w => (w.status, w.completedDate))
      = some (WStatus.COMPLETED, none) := by
  decide

/-- C5 (amended).  When a due PENDING instance successfully executes the
step whose order equals the workflow's maximum step order, its status
becomes COMPLETED, its completed date is left unchanged (the final-step
UPDATE does not write `completed_date`), and no subsequent
`execute_pending_workflows` run selects it. -/
theorem C5_final_step_completion (now : Int) (act : ActionOracle) (db : DB)
    (x : WInstance) (step : WStep)
    (hnd : (db.instances.map (·.instanceId)).Nodup)
    (hx : db.instances.find? (fun w => w.instanceId == x.instanceId) = some x)
    (hp : x.status = .PENDING) (hs : x.scheduledDate ≤ now)
    (hstep : findStep db.steps x.workflowId (x.currentStep + 1) = some step)
    (hact : act step.actionType x.customerId x.invoiceId = .ok ())
    (hmax : maxStepOrder db.steps x.workflowId = some (x.currentStep + 1)) :
    ∃ x', ((execute_pending_workflows now act db).1).instances.find?
        (fun w => w.instanceId == x.instanceId) = some x'
      ∧ x'.status = .COMPLETED
      ∧ x'.completedDate = x.completedDate
      ∧ ∀ now2, x'.instanceId ∉ duePending now2 (execute_pending_workflows now act db).1 := by
  have hmem : x ∈ db.instances := List.mem_of_find?_eq_some hx
  have hin : x.instanceId ∈ duePending now db := mem_duePending now db x hmem hp hs
  have hdnd : (duePending now db).Nodup := duePending_nodup now db hnd
  have h := epl_find_self now act (duePending now db) db x hdnd hin hx
  simp only [stepResult, hstep, hact, hmax, if_pos] at h
  refine ⟨_, h, rfl, rfl, ?_⟩
  intro now2
  have hnd' : (((execute_pending_workflows now act db).1).instances.map
      (·.instanceId)).Nodup := by
    show (((executePendingList now act (duePending now db) db).1).instances.map
      (·.instanceId)).Nodup
    rw [epl_map_ids]
    exact hnd
  exact not_mem_duePending now2 _ _ hnd' (List.mem_of_find?_eq_some h)
    (fun hc => by simp at hc)

/-- C5 witness: the single-step instance of `exC5db` completes with its
completion date still `none` and is never selected again. -/
theorem C5_witness :
    ∃ x', ((execute_pending_workflows 10 actOk exC5db).1).instances.find?
        (fun w => w.instanceId == 0) = some x'
      ∧ x'.status = .COMPLETED
      ∧ x'.completedDate = none
      ∧ ∀ now2, x'.instanceId ∉ duePending now2 (execute_pending_workflows 10 actOk exC5db).1 :=
  C5_final_step_completion 10 actOk exC5db exInst0 exStep1
    (by decide) (by decide) (by decide) (by decide) (by decide) rfl (by decide)

/-- C10.  `execute_pending_workflows` selects only instances with status
PENDING and a scheduled date at or before now; any instance not satisfying
that — in particular an ACTIVE one — is not selected and its row is
completely unchanged by the run, so an instance that became ACTIVE after its
first step never has further steps executed by this operation. -/
theorem C10_execute_due_frame (now : Int) (act : ActionOracle) (db : DB) (x : WInstance)
    (hnd : (db.instances.map (·.instanceId)).Nodup)
    (hx : db.instances.find? (fun w => w.instanceId == x.instanceId) = some x)
    (hnotdue : ¬(x.status = .PENDING ∧ x.scheduledDate ≤ now)) :
    x.instanceId ∉ duePending now db
    ∧ ((execute_pending_workflows now act db).1).instances.find?
        (fun w => w.instanceId == x.instanceId) = some x := by
  have hmem : x ∈ db.instances := List.mem_of_find?_eq_some hx
  have hnot : x.instanceId ∉ duePending now db :=
    not_mem_duePending now db x hnd hmem hnotdue
  exact ⟨hnot, epl_find_other now act (duePending now db) db x
    (fun i hi he => hnot (he ▸ hi)) hx⟩

/-- C10 witness: in `exC10db` the ACTIVE instance (id 1) is not selected at
time 10 and survives the run untouched, even though its scheduled date has
passed. -/
theorem C10_witness :
    (1 : Nat) ∉ duePending 10 exC10db
    ∧ ((execute_pending_workflows 10 actOk exC10db).1).instances.find?
        (fun w => w.instanceId == 1) = some exInstActive :=
  C10_execute_due_frame 10 actOk exC10db exInstActive
    (by decide) (by decide) (by decide)

/-! ## Lemmas: the promise tracker -/

theorem isTerminal_false_of_active (p : Promise) (h : p.status = .ACTIVE) :
    p.status.isTerminal = false := by
  rw [h]
  rfl

theorem ups_payments (today : Int) (db : DB) (pid : Nat) (ns : PromiseStatus)
    (amt : ℚ) (d : Option Int) (nt : String) :
    (update_promise_status today db pid ns amt d nt).1.payments = db.payments := by
  simp only [update_promise_status]
  rcases h1 : db.promises.find? (fun p => p.promiseId == pid) with _ | p
  · simp only [h1]
  · simp only [h1]
    split_ifs <;> rfl

theorem ups_map_ids (today : Int) (db : DB) (pid : Nat) (ns : PromiseStatus)
    (amt : ℚ) (d : Option Int) (nt : String) :
    (update_promise_status today db pid ns amt d nt).1.promises.map (·.promiseId)
      = db.promises.map (·.promiseId) := by
  simp only [update_promise_status]
  rcases h1 : db.promises.find? (fun p => p.promiseId == pid) with _ | p
  · simp only [h1]
  · simp only [h1]
    split_ifs <;> first
      | rfl
      | (apply map_key_mapIf
         exact fun _ => rfl)

theorem ups_find_other (today : Int) (db : DB) (pid : Nat) (ns : PromiseStatus)
    (amt : ℚ) (d : Option Int) (nt : String) (j : Nat) (hne : j ≠ pid) :
    (update_promise_status today db pid ns amt d nt).1.promises.find?
        (fun q => q.promiseId == j)
      = db.promises.find? (fun q => q.promiseId == j) := by
  simp only [update_promise_status]
  rcases h1 : db.promises.find? (fun p => p.promiseId == pid) with _ | p
  · simp only [h1]
  · simp only [h1]
    split_ifs <;> first
      | rfl
      | (apply find?_mapIf_other
         · exact fun _ => rfl
         · exact hne)

theorem ups_success_find (today : Int) (db : DB) (pid : Nat) (ns : PromiseStatus)
    (amt : ℚ) (d : Option Int) (nt : String) (p : Promise)
    (hfind : db.promises.find? (fun q => q.promiseId == pid) = some p)
    (hterm : p.status.isTerminal = false)
    (hamt : ¬((ns = .KEPT ∨ ns = .PARTIALLY_KEPT) ∧ amt ≤ 0)) :
    ∃ p', (update_promise_status today db pid ns amt d nt).1.promises.find?
        (fun q => q.promiseId == pid) = some p'
      ∧ p'.status = (if ns = .KEPT ∧ |amt - p.promisedAmount| > p.promisedAmount * 0.01
            ∧ amt < p.promisedAmount * 0.9
          then PromiseStatus.PARTIALLY_KEPT else ns) := by
  have h : (update_promise_status today db pid ns amt d nt).1.promises.find?
      (fun q => q.promiseId == pid) = some (upsRow
        (if ns = .KEPT ∧ |amt - p.promisedAmount| > p.promisedAmount * 0.01
            ∧ amt < p.promisedAmount * 0.9
         then PromiseStatus.PARTIALLY_KEPT else ns) amt d nt
        (decide ((if ns = .KEPT ∧ |amt - p.promisedAmount| > p.promisedAmount * 0.01
            ∧ amt < p.promisedAmount * 0.9
          then PromiseStatus.PARTIALLY_KEPT else ns) = .BROKEN
          ∧ escalationThreshold - 1 ≤ brokenCount90 db p.customerId today)) p) := by
    simp only [update_promise_status, hfind]
    rw [if_neg (by simp [hterm]), if_neg hamt]
    apply find?_mapIf_self
    · exact fun _ => rfl
    · exact hfind
  exact ⟨_, h, rfl⟩

theorem windowApplied_congr (db1 db2 : DB) (p : Promise)
    (h : db1.payments = db2.payments) : windowApplied db1 p = windowApplied db2 p := by
  simp only [windowApplied, h]

theorem pone_active_status (today : Int) (db : DB) (p : Promise)
    (hfind : db.promises.find? (fun q => q.promiseId == p.promiseId) = some p)
    (hact : p.status = .ACTIVE) (hamt : 0 < p.promisedAmount) :
    ∃ p', (processOverdueOne today db p).1.promises.find?
        (fun q => q.promiseId == p.promiseId) = some p'
      ∧ p'.status = (if p.promisedAmount * 0.99 ≤ windowApplied db p then PromiseStatus.KEPT
          else if p.promisedAmount * 0.9 ≤ windowApplied db p then PromiseStatus.PARTIALLY_KEPT
          else PromiseStatus.BROKEN) := by
  have hterm := isTerminal_false_of_active p hact
  by_cases hrec : p.promisedAmount * 0.9 ≤ windowApplied db p
  · have hpos : 0 < windowApplied db p :=
      lt_of_lt_of_le (by positivity) hrec
    have hrecv : (windowApplied db p ≠ 0 ∧ p.promisedAmount * 0.9 ≤ windowApplied db p) :=
      ⟨ne_of_gt hpos, hrec⟩
    simp only [processOverdueOne, if_pos hrecv]
    obtain ⟨p', h1, h2⟩ := ups_success_find today db p.promiseId
      (if p.promisedAmount * 0.99 ≤ windowApplied db p then PromiseStatus.KEPT
       else PromiseStatus.PARTIALLY_KEPT)
      (windowApplied db p) (some p.promisedPaymentDate) "" p hfind hterm
      (fun hc => absurd hc.2 (not_le.mpr hpos))
    · refine ⟨p', h1, ?_⟩
      rw [h2]
      by_cases hk : p.promisedAmount * 0.99 ≤ windowApplied db p
      · rw [if_pos hk, if_pos hk]
        rw [if_neg]
        intro hc
        exact absurd hrec (not_le.mpr hc.2.2)
      · rw [if_neg hk, if_neg hk, if_pos hrec]
        rw [if_neg]
        intro hc
        rcases hc.1 with h
        exact PromiseStatus.noConfusion h
  · have hnr : ¬(windowApplied db p ≠ 0 ∧ p.promisedAmount * 0.9 ≤ windowApplied db p) :=
      fun hc => hrec hc.2
    simp only [processOverdueOne, if_neg hnr]
    obtain ⟨p', h1, h2⟩ := ups_success_find today db p.promiseId .BROKEN 0 none "" p hfind hterm
      (by rintro ⟨h | h, _⟩ <;> exact PromiseStatus.noConfusion h)
    refine ⟨p', h1, ?_⟩
    rw [h2]
    have h99 : ¬(p.promisedAmount * 0.99 ≤ windowApplied db p) := by
      intro hc
      apply hrec
      calc p.promisedAmount * 0.9 ≤ p.promisedAmount * 0.99 := by nlinarith
        _ ≤ windowApplied db p := hc
    rw [if_neg h99, if_neg hrec, if_neg]
    rintro ⟨h, _⟩
    exact PromiseStatus.noConfusion h

theorem pone_find_other (today : Int) (db : DB) (row : Promise) (j : Nat)
    (hne : j ≠ row.promiseId) :
    (processOverdueOne today db row).1.promises.find? (fun q => q.promiseId == j)
      = db.promises.find? (fun q => q.promiseId == j) := by
  simp only [processOverdueOne]
  split_ifs <;> exact ups_find_other today db row.promiseId _ _ _ _ j hne

theorem pone_payments (today : Int) (db : DB) (row : Promise) :
    (processOverdueOne today db row).1.payments = db.payments := by
  simp only [processOverdueOne]
  split_ifs <;> exact ups_payments ..

theorem pol_fst_cons (today : Int) (row : Promise) (rest : List Promise) (db : DB) :
    (processOverdueList today (row :: rest) db).1
      = (processOverdueList today rest (processOverdueOne today db row).1).1 := by
  simp only [processOverdueList]
  rcases h : processOverdueOne today db row with ⟨db1, res⟩
  simp only [h]
  rcases res with e | ⟨st, esc⟩ <;> simp

set_option maxHeartbeats 1000000 in
theorem pol_find_other (today : Int) :
    ∀ (rows : List Promise) (db : DB) (j : Nat), (∀ r ∈ rows, r.promiseId ≠ j) →
      (processOverdueList today rows db).1.promises.find? (fun q => q.promiseId == j)
        = db.promises.find? (fun q => q.promiseId == j)
  | [], _, _, _ => rfl
  | row :: rest, db, j, h => by
    rw [pol_fst_cons]
    rw [pol_find_other today rest _ j (fun r hr => h r (List.mem_cons_of_mem _ hr))]
    exact pone_find_other today db row j (fun he => h row (List.mem_cons_self _ _) he.symm)

set_option maxHeartbeats 1000000 in
theorem pol_process_target (today : Int) :
    ∀ (rows : List Promise) (db : DB) (p : Promise),
      (rows.map (·.promiseId)).Nodup → p ∈ rows →
      db.promises.find? (fun q => q.promiseId == p.promiseId) = some p →
      p.status = .ACTIVE → 0 < p.promisedAmount →
      ∃ p', (processOverdueList today rows db).1.promises.find?
          (fun q => q.promiseId == p.promiseId) = some p'
        ∧ p'.status = (if p.promisedAmount * 0.99 ≤ windowApplied db p then PromiseStatus.KEPT
            else if p.promisedAmount * 0.9 ≤ windowApplied db p then PromiseStatus.PARTIALLY_KEPT
            else PromiseStatus.BROKEN)
  | row :: rest, db, p, hnd, hmem, hfind, hact, hamt => by
    rw [List.map_cons, List.nodup_cons] at hnd
    rw [pol_fst_cons]
    rcases List.mem_cons.mp hmem with h' | h'
    · subst h'
      obtain ⟨p', h1, h2⟩ := pone_active_status today db p hfind hact hamt
      refine ⟨p', ?_, h2⟩
      rw [pol_find_other today rest _ p.promiseId
        (fun r hr he => hnd.1 (he ▸ List.mem_map.mpr ⟨r, hr, rfl⟩))]
      exact h1
    · have hne : p.promiseId ≠ row.promiseId :=
        fun he => hnd.1 (he ▸ List.mem_map.mpr ⟨p, h', rfl⟩)
      have hfind1 : ((processOverdueOne today db row).1).promises.find?
          (fun q => q.promiseId == p.promiseId) = some p := by
        rw [pone_find_other today db row p.promiseId hne]
        exact hfind
      obtain ⟨p', h1, h2⟩ := pol_process_target today rest
        ((processOverdueOne today db row).1) p hnd.2 h' hfind1 hact hamt
      refine ⟨p', h1, ?_⟩
      rwa [windowApplied_congr ((processOverdueOne today db row).1) db p
        (pone_payments today db row)] at h2

/-- C6.  For every ACTIVE promise whose promised payment date is more than
the 2-day grace period in the past, `process_overdue_promises` sums the
payments applied to the linked invoice within [due date, due date + 5] and
resolves it: sum ≥ 99% of promised → KEPT; 90% ≤ sum < 99% → PARTIALLY_KEPT;
anything else (no linked invoice, no or insufficient payment) → BROKEN. -/
theorem C6_reconcile_bands (today : Int) (db : DB) (p : Promise)
    (hnd : (db.promises.map (·.promiseId)).Nodup)
    (hmem : p ∈ db.promises)
    (hact : p.status = .ACTIVE)
    (hdue : p.promisedPaymentDate < today - gracePeriodDays)
    (hamt : 0 < p.promisedAmount) :
    ∃ p', ((process_overdue_promises today db).1).promises.find?
        (fun q => q.promiseId == p.promiseId) = some p'
      ∧ p'.status = (if p.promisedAmount * 0.99 ≤ windowApplied db p then PromiseStatus.KEPT
          else if p.promisedAmount * 0.9 ≤ windowApplied db p then PromiseStatus.PARTIALLY_KEPT
          else PromiseStatus.BROKEN) := by
  have hfind : db.promises.find? (fun q => q.promiseId == p.promiseId) = some p :=
    find?_key_of_mem_nodup (·.promiseId) db.promises hnd p hmem
  have hsnap : p ∈ db.promises.filter (fun q =>
      q.status.isActive && decide (q.promisedPaymentDate < today - gracePeriodDays)) := by
    rw [List.mem_filter]
    refine ⟨hmem, ?_⟩
    simp [hact, PromiseStatus.isActive, hdue]
  have hsnd : ((db.promises.filter (fun q =>
      q.status.isActive && decide (q.promisedPaymentDate < today - gracePeriodDays))).map
      (·.promiseId)).Nodup :=
    hnd.sublist ((List.filter_sublist db.promises).map _)
  exact pol_process_target today _ db p hsnd hsnap hfind hact hamt

/-- C6 witness (Scenario 3): the $1,000 promise of `exC6db`, due at day 0
and reconciled at day 10 with $950 applied on day 2, resolves to
PARTIALLY_KEPT. -/
theorem C6_witness :
    ∃ p', ((process_overdue_promises 10 exC6db).1).promises.find?
        (fun q => q.promiseId == 1) = some p'
      ∧ p'.status = PromiseStatus.PARTIALLY_KEPT := by
  obtain ⟨p', h1, h2⟩ := C6_reconcile_bands 10 exC6db exProm1
    (by decide) (by decide) (by decide) (by decide) (by decide)
  refine ⟨p', h1, ?_⟩
  rw [h2]
  norm_num [windowApplied, exC6db, exProm1]

theorem isActive_iff (s : PromiseStatus) : s.isActive = true ↔ s = .ACTIVE := by
  cases s <;> simp [PromiseStatus.isActive]

/-- C7.  A promise whose status is terminal (KEPT, BROKEN or CANCELLED) can
no longer change: `update_promise_status` rejects any requested transition
with an error and no state change, and `process_overdue_promises` never
selects a non-ACTIVE promise, leaving its row untouched. -/
theorem C7_terminal_immutable (today : Int) (db : DB) (p : Promise)
    (ns : PromiseStatus) (amt : ℚ) (d : Option Int) (nt : String)
    (hnd : (db.promises.map (·.promiseId)).Nodup)
    (hmem : p ∈ db.promises)
    (hterm : p.status.isTerminal = true) :
    update_promise_status today db p.promiseId ns amt d nt
      = (db, .error "Cannot update promise with terminal status")
    ∧ ((process_overdue_promises today db).1).promises.find?
        (fun q => q.promiseId == p.promiseId) = some p := by
  have hfind : db.promises.find? (fun q => q.promiseId == p.promiseId) = some p :=
    find?_key_of_mem_nodup (·.promiseId) db.promises hnd p hmem
  constructor
  · simp only [update_promise_status, hfind]
    rw [if_pos (by simp [hterm])]
  · have hnotin : ∀ r ∈ db.promises.filter (fun q =>
        q.status.isActive && decide (q.promisedPaymentDate < today - gracePeriodDays)),
        r.promiseId ≠ p.promiseId := by
      intro r hr he
      have hr' := List.mem_filter.mp hr
      have hrp : r = p := List.inj_on_of_nodup_map hnd hr'.1 hmem he
      subst hrp
      have h2 := hr'.2
      simp only [Bool.and_eq_true] at h2
      rw [(isActive_iff r.status).mp h2.1] at hterm
      exact Bool.noConfusion hterm
    show (processOverdueList today _ db).1.promises.find? _ = _
    rw [pol_find_other today _ db p.promiseId hnotin]
    exact hfind

/-- C7 witness: the KEPT promise (id 2) of `exC6db` rejects a CANCELLED
transition and survives reconciliation untouched. -/
theorem C7_witness :
    update_promise_status 10 exC6db 2 .CANCELLED 0 none ""
      = (exC6db, .error "Cannot update promise with terminal status")
    ∧ ((process_overdue_promises 10 exC6db).1).promises.find?
        (fun q => q.promiseId == 2) = some exProm2 :=
  C7_terminal_immutable 10 exC6db exProm2 .CANCELLED 0 none ""
    (by decide) (by decide) (by decide)

/-- C8.  `create_payment_promise` rejects — leaving the state unchanged — a
non-positive promised amount, a promised payment date not strictly in the
future, a missing customer, a linked invoice that does not exist for that
customer with a positive outstanding balance, and a promised amount
exceeding that balance; on success it appends an ACTIVE promise whose
follow-up date is the promised payment date minus one day
(`follow_up_lead_time`). -/
theorem C8_create_validation (today : Int) (db : DB) (cid : Nat) (amt : ℚ)
    (d : Int) (invId : Option Nat) (nt : String) :
    (amt ≤ 0 → create_payment_promise today db cid amt d invId nt
        = (db, .error "Promised amount must be positive"))
    ∧ (0 < amt → d ≤ today → create_payment_promise today db cid amt d invId nt
        = (db, .error "Promise date must be in the future"))
    ∧ (0 < amt → today < d →
        db.customers.find? (fun c => c.customerId == cid) = none →
        create_payment_promise today db cid amt d invId nt
          = (db, .error "Customer not found"))
    ∧ (∀ c i, 0 < amt → today < d →
        db.customers.find? (fun c => c.customerId == cid) = some c →
        invId = some i →
        db.invoices.find? (fun x => x.invoiceId == i && x.customerId == cid
          && decide (0 < x.outstanding)) = none →
        create_payment_promise today db cid amt d invId nt
          = (db, .error "Invoice not found or already paid"))
    ∧ (∀ c i invc, 0 < amt → today < d →
        db.customers.find? (fun c => c.customerId == cid) = some c →
        invId = some i →
        db.invoices.find? (fun x => x.invoiceId == i && x.customerId == cid
          && decide (0 < x.outstanding)) = some invc →
        invc.outstanding < amt →
        create_payment_promise today db cid amt d invId nt
          = (db, .error "Promised amount exceeds outstanding balance"))
    ∧ (∀ c, 0 < amt → today < d →
        db.customers.find? (fun c => c.customerId == cid) = some c →
        (invId = none ∨ ∃ i invc, invId = some i
          ∧ db.invoices.find? (fun x => x.invoiceId == i && x.customerId == cid
              && decide (0 < x.outstanding)) = some invc
          ∧ amt ≤ invc.outstanding) →
        (create_payment_promise today db cid amt d invId nt).2 = .ok db.nextPromiseId
        ∧ (create_payment_promise today db cid amt d invId nt).1.promises
            = db.promises ++ [createdRow db.nextPromiseId cid invId today amt d nt]) := by
  refine ⟨?_, ?_, ?_, ?_, ?_, ?_⟩
  · intro h
    simp only [create_payment_promise, if_pos h]
  · intro h1 h2
    simp only [create_payment_promise, if_neg (not_le.mpr h1), if_pos h2]
  · intro h1 h2 h3
    simp only [create_payment_promise, if_neg (not_le.mpr h1), if_neg (not_le.mpr h2), h3]
  · intro c i h1 h2 hc hi hinv
    subst hi
    simp only [create_payment_promise, if_neg (not_le.mpr h1), if_neg (not_le.mpr h2),
      hc, hinv]
  · intro c i invc h1 h2 hc hi hinv hlt
    subst hi
    simp only [create_payment_promise, if_neg (not_le.mpr h1), if_neg (not_le.mpr h2),
      hc, hinv, if_pos hlt]
  · intro c h1 h2 hc hdisj
    rcases hdisj with hnone | ⟨i, invc, hi, hinv, hle⟩
    · subst hnone
      simp only [create_payment_promise, if_neg (not_le.mpr h1), if_neg (not_le.mpr h2), hc]
      exact ⟨trivial, rfl⟩
    · subst hi
      simp only [create_payment_promise, if_neg (not_le.mpr h1), if_neg (not_le.mpr h2),
        hc, hinv, if_neg (not_lt.mpr hle)]
      exact ⟨trivial, rfl⟩

/-- C8 witness: creating a $500 promise due at day 5 against invoice 7
(outstanding $1,000) of customer 1 succeeds, storing an ACTIVE promise with
follow-up date 4. -/
theorem C8_witness :
    (create_payment_promise 0 exC6db 1 500 5 (some 7) "").2 = .ok exC6db.nextPromiseId
    ∧ (create_payment_promise 0 exC6db 1 500 5 (some 7) "").1.promises
        = exC6db.promises ++ [createdRow exC6db.nextPromiseId 1 (some 7) 0 500 5 ""] :=
  (C8_create_validation 0 exC6db 1 500 5 (some 7) "").2.2.2.2.2
    { customerId := 1 } (by decide) (by decide) (by decide)
    (Or.inr ⟨7, exInv7, rfl, by decide, by decide⟩)

/-! ## Lemmas: the priority scorer (C9) -/

theorem amount_score_bounds (invs : List Invoice) :
    0 ≤ _calculate_amount_score invs ∧ _calculate_amount_score invs ≤ 100 := by
  unfold _calculate_amount_score
  dsimp only
  split_ifs <;> norm_num

theorem aging_sums (invs : List Invoice)
    (h : ∀ i ∈ invs, 0 < i.outstanding ∧ 0 ≤ i.daysPastDue) :
    0 ≤ agingNum invs ∧ agingNum invs ≤ 100 * agingDen invs ∧ 0 ≤ agingDen invs := by
  induction invs with
  | nil => simp [agingNum, agingDen]
  | cons a t ih =>
    have ha := h a (List.mem_cons_self a t)
    obtain ⟨ih1, ih2, ih3⟩ := ih (fun i hi => h i (List.mem_cons_of_mem _ hi))
    have hd : (0:ℚ) ≤ (a.daysPastDue : ℚ) := by exact_mod_cast ha.2
    have hmin0 : 0 ≤ min 100 ((a.daysPastDue : ℚ) * 0.8) :=
      le_min (by norm_num) (by nlinarith)
    have hmin100 : min 100 ((a.daysPastDue : ℚ) * 0.8) ≤ 100 := min_le_left _ _
    have hout := ha.1
    simp only [agingNum, agingDen, List.map_cons, List.sum_cons] at *
    refine ⟨?_, ?_, ?_⟩
    · nlinarith
    · nlinarith
    · nlinarith

theorem aging_score_bounds (invs : List Invoice)
    (h : ∀ i ∈ invs, 0 < i.outstanding ∧ 0 ≤ i.daysPastDue) :
    0 ≤ _calculate_aging_score invs ∧ _calculate_aging_score invs ≤ 100 := by
  obtain ⟨hn0, hn100, hd0⟩ := aging_sums invs h
  unfold _calculate_aging_score
  split_ifs with h1 h2
  · norm_num
  · constructor
    · exact div_nonneg hn0 (le_of_lt h2)
    · rw [div_le_iff₀ h2]
      linarith
  · norm_num

theorem historyBase_bounds (c : Customer)
    (h0 : 0 ≤ c.paymentReliabilityScore) (h100 : c.paymentReliabilityScore ≤ 100) :
    0 ≤ historyBase c ∧ historyBase c ≤ 100 := by
  unfold historyBase
  split_ifs with h1 h2
  · exact ⟨le_min (by norm_num) (by linarith), min_le_left _ _⟩
  · exact ⟨le_max_left _ _, max_le (by norm_num) (by linarith)⟩
  · refine ⟨le_max_left _ _, max_le (by norm_num) ?_⟩
    have hw : (0:ℚ) ≤ min 50 ((c.avgDaysToPay - c.paymentTermsDays) * 2) :=
      le_min (by norm_num) (by push_neg at h2; linarith)
    linarith

theorem history_score_bounds (today : Int) (db : DB) (cid : Nat) (c : Customer)
    (hc : db.customers.find? (fun x => x.customerId == cid) = some c)
    (h0 : 0 ≤ c.paymentReliabilityScore) (h100 : c.paymentReliabilityScore ≤ 100) :
    0 ≤ _calculate_payment_history_score today db cid
      ∧ _calculate_payment_history_score today db cid ≤ 100 := by
  obtain ⟨hb0, hb100⟩ := historyBase_bounds c h0 h100
  unfold _calculate_payment_history_score
  rw [hc]
  dsimp only
  split_ifs
  · exact ⟨le_max_left _ _, max_le (by norm_num) (by linarith)⟩
  · exact ⟨le_min (by norm_num) (by linarith), min_le_left _ _⟩
  · exact ⟨hb0, hb100⟩
  · exact ⟨hb0, hb100⟩

theorem relationship_score_bounds (today : Int) (db : DB) (cid : Nat) (c : Customer) :
    0 ≤ _calculate_relationship_score today db cid c
      ∧ _calculate_relationship_score today db cid c ≤ 100 := by
  unfold _calculate_relationship_score
  exact ⟨le_max_left _ _, max_le (by norm_num) (min_le_left _ _)⟩

theorem effort_score_bounds (today : Int) (db : DB) (cid : Nat) :
    0 ≤ _calculate_collection_effort_score today db cid
      ∧ _calculate_collection_effort_score today db cid ≤ 100 := by
  unfold _calculate_collection_effort_score
  dsimp only
  split_ifs <;> first
    | norm_num
    | exact ⟨le_max_left _ _, max_le (by norm_num) (min_le_left _ _)⟩

/-- C9 counterexample.  In `exC9db`, customer 1 has one outstanding invoice
(so the claim applies), but the invoice's stored `days_past_due` is −90 (it
is not yet due — the aging recomputation stores the raw date difference
unclamped), giving an aging component of −72; since the code applies no
clamp to the composite, the returned score is −227/20 < 0: it neither lies
in [0,100] nor equals the clamped weighted sum. -/
theorem C9_counterexample :
    calculate_customer_priority_score 0 exC9db 1 = some (-227/20 : ℚ)
    ∧ (outstandingInvoicesOf exC9db 1).isEmpty = false
    ∧ ((-227/20 : ℚ) < 0)
    ∧ max 0 (min 100 (-227/20 : ℚ)) ≠ (-227/20 : ℚ) := by
  have hinvs : outstandingInvoicesOf exC9db 1 = [exInv9] := by decide
  have hfc : exC9db.customers.find? (fun c => c.customerId == 1) = some exCust9 := by decide
  have hamt : _calculate_amount_score [exInv9] = 10 := by
    norm_num [_calculate_amount_score, exInv9]
  have hag : _calculate_aging_score [exInv9] = -72 := by
    norm_num [_calculate_aging_score, agingNum, agingDen, exInv9, min_def]
  have hh : _calculate_payment_history_score 0 exC9db 1 = 10 := by
    simp only [_calculate_payment_history_score, hfc]
    norm_num [historyBase, exC9db, exCust9, min_def]
  have hr : _calculate_relationship_score 0 exC9db 1 exCust9 = 5 := by
    norm_num [_calculate_relationship_score, exC9db, exCust9, exInv9,
      outstandingInvoicesOf, tier_1_min, tier_2_min, tier_3_min, min_def, max_def]
  have he : _calculate_collection_effort_score 0 exC9db 1 = 50 := by
    simp [_calculate_collection_effort_score, exC9db]
  refine ⟨?_, by decide, by norm_num, by norm_num [min_def, max_def]⟩
  simp only [calculate_customer_priority_score, hfc, hinvs]
  rw [if_neg (by decide)]
  rw [hamt, hag, hh, hr, he]
  norm_num [amount_weight, aging_weight, customer_history_weight,
    relationship_weight, collection_effort_weight]

/-- C9 (amended).  For a customer that exists and has at least one
outstanding invoice, the priority score equals the weighted sum of the five
component scores with weights 0.25 / 0.30 / 0.20 / 0.15 / 0.10, with no
clamp applied to the composite; whenever the stored reliability score lies
in [0,100] and none of the customer's outstanding invoices has negative
days-past-due, that sum already lies within [0,100] and is a fixed point of
the clamp — but a not-yet-due outstanding invoice (negative stored
days-past-due) can drive the returned score below 0, as `C9_counterexample`
shows. -/
theorem C9_priority_score_bounds (today : Int) (db : DB) (cid : Nat) (c : Customer)
    (hc : db.customers.find? (fun x => x.customerId == cid) = some c)
    (hne : (outstandingInvoicesOf db cid).isEmpty = false) :
    ∃ s, calculate_customer_priority_score today db cid = some s
      ∧ s = _calculate_amount_score (outstandingInvoicesOf db cid) * (0.25 : ℚ)
          + _calculate_aging_score (outstandingInvoicesOf db cid) * (0.30 : ℚ)
          + _calculate_payment_history_score today db cid * (0.20 : ℚ)
          + _calculate_relationship_score today db cid c * (0.15 : ℚ)
          + _calculate_collection_effort_score today db cid * (0.10 : ℚ)
      ∧ (0 ≤ c.paymentReliabilityScore → c.paymentReliabilityScore ≤ 100 →
          (∀ i ∈ outstandingInvoicesOf db cid, 0 ≤ i.daysPastDue) →
          0 ≤ s ∧ s ≤ 100 ∧ max 0 (min 100 s) = s) := by
  refine ⟨_, ?_, rfl, ?_⟩
  · unfold calculate_customer_priority_score
    rw [hc]
    dsimp only
    rw [if_neg (by simp [hne])]
    rfl
  · intro hrel0 hrel100 hdays
    have hinvprops : ∀ i ∈ outstandingInvoicesOf db cid,
        0 < i.outstanding ∧ 0 ≤ i.daysPastDue := by
      intro i hi
      have h2 := (List.mem_filter.mp hi).2
      simp only [Bool.and_eq_true, decide_eq_true_eq] at h2
      exact ⟨h2.2, hdays i hi⟩
    obtain ⟨ha0, ha100⟩ := amount_score_bounds (outstandingInvoicesOf db cid)
    obtain ⟨hg0, hg100⟩ := aging_score_bounds (outstandingInvoicesOf db cid) hinvprops
    obtain ⟨hh0, hh100⟩ := history_score_bounds today db cid c hc hrel0 hrel100
    obtain ⟨hr0, hr100⟩ := relationship_score_bounds today db cid c
    obtain ⟨he0, he100⟩ := effort_score_bounds today db cid
    refine ⟨?_, ?_, ?_⟩
    · nlinarith
    · nlinarith
    · have hs0 : (0:ℚ) ≤ _calculate_amount_score (outstandingInvoicesOf db cid) * (0.25 : ℚ)
            + _calculate_aging_score (outstandingInvoicesOf db cid) * (0.30 : ℚ)
            + _calculate_payment_history_score today db cid * (0.20 : ℚ)
            + _calculate_relationship_score today db cid c * (0.15 : ℚ)
            + _calculate_collection_effort_score today db cid * (0.10 : ℚ) := by nlinarith
      have hs100 : _calculate_amount_score (outstandingInvoicesOf db cid) * (0.25 : ℚ)
            + _calculate_aging_score (outstandingInvoicesOf db cid) * (0.30 : ℚ)
            + _calculate_payment_history_score today db cid * (0.20 : ℚ)
            + _calculate_relationship_score today db cid c * (0.15 : ℚ)
            + _calculate_collection_effort_score today db cid * (0.10 : ℚ) ≤ 100 := by
        nlinarith
      rw [min_eq_right hs100, max_eq_right hs0]

/-- C9 witness: customer 1 of `exC6db` (reliability 50, one $1,000 invoice
45 days past due) gets a well-defined score equal to the weighted component
sum — and, all its outstanding invoices being genuinely past due and its
reliability in range, the score lies within [0,100]. -/
theorem C9_witness :
    ∃ s, calculate_customer_priority_score 0 exC6db 1 = some s
      ∧ s = _calculate_amount_score (outstandingInvoicesOf exC6db 1) * (0.25 : ℚ)
          + _calculate_aging_score (outstandingInvoicesOf exC6db 1) * (0.30 : ℚ)
          + _calculate_payment_history_score 0 exC6db 1 * (0.20 : ℚ)
          + _calculate_relationship_score 0 exC6db 1 { customerId := 1 } * (0.15 : ℚ)
          + _calculate_collection_effort_score 0 exC6db 1 * (0.10 : ℚ)
      ∧ 0 ≤ s ∧ s ≤ 100 ∧ max 0 (min 100 s) = s := by
  obtain ⟨s, h1, h2, h3⟩ := C9_priority_score_bounds 0 exC6db 1 { customerId := 1 }
    (by decide) (by decide)
  obtain ⟨h4, h5, h6⟩ := h3 (by decide) (by decide) (by decide)
  exact ⟨s, h1, h2, h4, h5, h6⟩

end ARCM
